import Mathlib

/-!
Verification development for the ChapterRewriter tool
(`scripts/chapter_rewriter.py`).

The Python code is shallowly embedded over `List Char` (one Python `str`
is one `List Char`; the embedding targets the ASCII fragment the tool
manipulates).  Python floats are modelled as exact rationals `ℚ`
(`statistics.mean` / `statistics.variance` compute exactly on integer
data before converting to float, so the rational model matches the
comparisons made by the code on all inputs exercised here).  Python's
`/` on a zero denominator raises `ZeroDivisionError`; the rational model
totalises it as `0` — every theorem below stays inside the region where
the Python code does not raise, except where noted.

Section 1: Python string primitives.
Section 2: data model (QualityMetrics, ChapterBoundary, ...).
Section 3: QualityAssessor.
Section 4: ProblemAnalyzer.
Section 5: ChapterDetector.
Section 6: ChapterRewriter (light tier, preservation, rewrite loop).
Then the supporting lemmas and one theorem per claim.
-/

/-- Shorthand turning a Lean string literal into the `List Char` the
embedding works over. -/
def lc (s : String) : List Char := s.data

/-- Decimal rendering of a count, as used by Python f-strings such as
`f"Found {n} overly long paragraphs"`. -/
def natL (n : Nat) : List Char := (Nat.repr n).data

/-- ASCII whitespace recognised by Python's `str.split()` / `str.strip()`
and by the regex class `\s` (the texts handled by the tool are ASCII). -/
def isSpaceChar (c : Char) : Bool :=
  c = ' ' || c = '\t' || c = '\n' || c = '\r' || c = '\x0b' || c = '\x0c'

/-- Characters of the regex class `[.!?]` used for sentence segmentation. -/
def isSentenceSep (c : Char) : Bool := c = '.' || c = '!' || c = '?'

/-- Characters of the regex class `\w` (ASCII fragment). -/
def isWordChar (c : Char) : Bool := c.isAlpha || c.isDigit || c = '_'

/-- ASCII upper-case letter, the regex class `[A-Z]`. -/
def isUpperChar (c : Char) : Bool := 'A' ≤ c && c ≤ 'Z'

/-- ASCII lower-case letter, the regex class `[a-z]`. -/
def isLowerChar (c : Char) : Bool := 'a' ≤ c && c ≤ 'z'

/-- ASCII letter; `[a-z]` under `re.IGNORECASE`. -/
def isAlphaChar (c : Char) : Bool := isUpperChar c || isLowerChar c

/-- Python `str.lower()` on the ASCII fragment. -/
def lowerChar (c : Char) : Char :=
  if isUpperChar c then Char.ofNat (c.toNat + 32) else c

/-- Python `str.lower()` applied characterwise. -/
def lowerL (t : List Char) : List Char := t.map lowerChar

/-- Maximal runs of characters satisfying `p`; the accumulator holds the
current run reversed. -/
def runsAux (p : Char → Bool) : List Char → List Char → List (List Char)
  | [], acc => if acc.isEmpty then [] else [acc.reverse]
  | c :: cs, acc =>
    if p c then runsAux p cs (c :: acc)
    else if acc.isEmpty then runsAux p cs []
    else acc.reverse :: runsAux p cs []

/-- Maximal runs of characters satisfying `p`. -/
def runsC (p : Char → Bool) (t : List Char) : List (List Char) := runsAux p t []

/-- Python `str.split()` with no argument: maximal non-whitespace runs,
empty pieces discarded. -/
def pySplit (t : List Char) : List (List Char) := runsC (fun c => !isSpaceChar c) t

/-- Worker for `re.split` on a character class applied one-or-more times:
`skipping = true` while consuming a separator run. -/
def reSplitAux (isSep : Char → Bool) : List Char → Bool → List Char → List (List Char)
  | [], false, acc => [acc.reverse]
  | [], true, _ => [[]]
  | c :: cs, false, acc =>
    if isSep c then acc.reverse :: reSplitAux isSep cs true []
    else reSplitAux isSep cs false (c :: acc)
  | c :: cs, true, _ =>
    if isSep c then reSplitAux isSep cs true []
    else reSplitAux isSep cs false [c]

/-- Python `re.split(r'[X]+', text)` for the class decided by `isSep`:
runs of separators collapse to one split point, boundary pieces may be
empty, and the result is never the empty list. -/
def reSplit (isSep : Char → Bool) (t : List Char) : List (List Char) :=
  reSplitAux isSep t false []

/-- Python `str.split(sep)` for a one-character separator (keeps empty
pieces). -/
def splitChar (sep : Char) : List Char → List Char → List (List Char)
  | [], acc => [acc.reverse]
  | c :: cs, acc =>
    if c = sep then acc.reverse :: splitChar sep cs []
    else splitChar sep cs (c :: acc)

/-- Python `str.split('\n\n')`: leftmost non-overlapping occurrences of
the two-character separator. -/
def splitNN : List Char → List Char → List (List Char)
  | [], acc => [acc.reverse]
  | [c], acc => [acc.reverse ++ [c]]
  | c :: d :: rest, acc =>
    if c = '\n' && d = '\n' then acc.reverse :: splitNN rest []
    else splitNN (d :: rest) (c :: acc)

/-- Python `str.strip()` (ASCII whitespace). -/
def pyStrip (t : List Char) : List Char :=
  ((t.dropWhile isSpaceChar).reverse.dropWhile isSpaceChar).reverse

/-- Python's substring operator `pat in s` (non-empty occurrence scan). -/
def containsSub (p : List Char) : List Char → Bool
  | [] => p.isEmpty
  | c :: t => p.isPrefixOf (c :: t) || containsSub p t

/-- Worker for `str.count`: non-overlapping left-to-right occurrence
count; the fuel starts at the length of the text, which bounds the
number of scanning steps. -/
def countSubFuel (pat : List Char) : Nat → List Char → Nat
  | 0, _ => 0
  | _, [] => 0
  | fuel + 1, s@(_ :: cs) =>
    if pat.isPrefixOf s then 1 + countSubFuel pat fuel (s.drop pat.length)
    else countSubFuel pat fuel cs

/-- Python `s.count(pat)` for non-empty `pat`. -/
def countSub (pat s : List Char) : Nat := countSubFuel pat s.length s

/-- Python `s.replace(pat, repl, 1)` for non-empty `pat`. -/
def replaceFirst (pat repl : List Char) : List Char → List Char
  | [] => if pat.isPrefixOf ([] : List Char) then repl else []
  | c :: cs =>
    if pat.isPrefixOf (c :: cs) then repl ++ (c :: cs).drop pat.length
    else c :: replaceFirst pat repl cs

/-- Worker for `re.findall(r'"[^"]*"', text)`: `inQuote` tells whether an
opening quote has been seen; the accumulator holds the quoted body
reversed.  An unmatched final quote yields no match, as in `re`. -/
def findQuotedAux : List Char → Bool → List Char → List (List Char)
  | [], _, _ => []
  | c :: cs, false, _ =>
    if c = '"' then findQuotedAux cs true [] else findQuotedAux cs false []
  | c :: cs, true, acc =>
    if c = '"' then ('"' :: acc.reverse ++ ['"']) :: findQuotedAux cs false []
    else findQuotedAux cs true (c :: acc)

/-- Python `re.findall(r'"[^"]*"', text)`; each match keeps its quotes. -/
def findQuoted (t : List Char) : List (List Char) := findQuotedAux t false []

/-- Python duplicate removal keeping first occurrences (the iteration
order of `dict` keys; used to model `set` contents where the code only
relies on membership, emptiness, size, or where the set's arbitrary
iteration order is commented at the use site). -/
def pyDedupAux : List (List Char) → List (List Char) → List (List Char)
  | [], _ => []
  | x :: xs, seen =>
    if x ∈ seen then pyDedupAux xs seen else x :: pyDedupAux xs (x :: seen)

/-- Duplicate removal keeping first occurrences. -/
def pyDedup (l : List (List Char)) : List (List Char) := pyDedupAux l []

/-- Case-insensitive literal prefix test (`re.match` of a literal word
under `re.IGNORECASE`, for lower-case `p`). -/
def ciPrefixOf (p : List Char) (l : List Char) : Bool := lowerL (l.take p.length) == p

/-- Python `', '.join`-style interspersion. -/
def joinSep (sep : List Char) : List (List Char) → List Char
  | [] => []
  | [x] => x
  | x :: y :: ys => x ++ sep ++ joinSep sep (y :: ys)

/-- Exact mean, `statistics.mean` (callers guard non-emptiness as the
code does). -/
def pyMean (xs : List ℚ) : ℚ := xs.sum / (xs.length : ℚ)

/-- Exact sample variance with the `n - 1` denominator,
`statistics.variance` (callers guard `len > 1` as the code does). -/
def sampleVariance (xs : List ℚ) : ℚ :=
  (xs.map (fun x => (x - pyMean xs) ^ 2)).sum / ((xs.length : ℚ) - 1)

/-- Comprehensive quality assessment metrics (`QualityMetrics` dataclass). -/
structure QualityMetrics where
  readability_score : ℚ
  story_structure_score : ℚ
  character_consistency_score : ℚ
  pacing_score : ℚ
  dialogue_effectiveness_score : ℚ
  narrative_flow_score : ℚ
  tension_score : ℚ
  prose_quality_score : ℚ
  overall_score : ℚ
deriving DecidableEq

/-- Embedding of `QualityMetrics.is_better_than`: non-strict on the eight dimensions,
strict on the aggregate. -/
def QualityMetrics.is_better_than (self other : QualityMetrics) : Bool :=
  decide (self.readability_score ≥ other.readability_score) &&
  decide (self.story_structure_score ≥ other.story_structure_score) &&
  decide (self.character_consistency_score ≥ other.character_consistency_score) &&
  decide (self.pacing_score ≥ other.pacing_score) &&
  decide (self.dialogue_effectiveness_score ≥ other.dialogue_effectiveness_score) &&
  decide (self.narrative_flow_score ≥ other.narrative_flow_score) &&
  decide (self.tension_score ≥ other.tension_score) &&
  decide (self.prose_quality_score ≥ other.prose_quality_score) &&
  decide (self.overall_score > other.overall_score)

/-- Chapter boundary record (`ChapterBoundary` dataclass). -/
structure ChapterBoundary where
  chapter_number : Nat
  start_position : Nat
  end_position : Nat
  title : Option (List Char)
  confidence : ℚ
deriving DecidableEq

/-- Default boundary used only as the `getD` fallback in statements. -/
def cbDefault : ChapterBoundary := ⟨0, 0, 0, none, 0⟩

/-- Problem analysis record (`ProblemAnalysis` dataclass). -/
structure ProblemAnalysis where
  structural_issues : List (List Char)
  narrative_issues : List (List Char)
  character_issues : List (List Char)
  pacing_issues : List (List Char)
  dialogue_issues : List (List Char)
  prose_issues : List (List Char)
  severity_score : ℚ
deriving DecidableEq

/-- Preservation controls (`PreservationControls` dataclass).  The Python
defaults `preserve_dialogue = None` and `preserve_plot_points = None`
behave exactly like empty lists everywhere they are read (only their
truthiness and iteration are used), so `None` is modelled as `[]`.
`custom_preservations` is never read by the code and is omitted. -/
structure PreservationControls where
  preserve_dialogue : List (List Char)
  preserve_character_names : Bool
  preserve_plot_points : List (List Char)
  preserve_scenes : List Int
deriving DecidableEq

/-- Numeric per-metric deltas, the `improvements` dict built by
`_calculate_improvements` (one field per dict key). -/
structure Improvements where
  readability : ℚ
  story_structure : ℚ
  character_consistency : ℚ
  pacing : ℚ
  dialogue_effectiveness : ℚ
  narrative_flow : ℚ
  tension : ℚ
  prose_quality : ℚ
  overall : ℚ
deriving DecidableEq

/-- Rewrite report (`RewriteReport` dataclass). -/
structure RewriteReport where
  original_metrics : QualityMetrics
  final_metrics : QualityMetrics
  changes_made : List (List Char)
  improvements : Improvements
  iterations_required : Nat
  preserved_elements : List (List Char)

/-- The two `ValueError` conditions raised by `rewrite_chapter`. -/
inductive RewriteError where
  | noChaptersDetected
  | chapterNotFound (n : Int)
deriving DecidableEq

/-- Paragraph list used throughout the assessor and analyzer:
`[p.strip() for p in text.split('\n\n') if p.strip()]`. -/
def paragraphsOf (text : List Char) : List (List Char) :=
  ((splitNN text []).map pyStrip).filter (fun p => !p.isEmpty)

/-- Sentence word counts used by several heuristics:
`[len(s.split()) for s in re.split(r'[.!?]+', text) if s.strip()]`. -/
def sentenceLengthsOf (text : List Char) : List ℚ :=
  ((reSplit isSentenceSep text).filter (fun s => !(pyStrip s).isEmpty)).map
    (fun s => ((pySplit s).length : ℚ))

/-- Embedding of `QualityAssessor._assess_readability`.  On a text whose words contain
no sentence content (e.g. `"..."`) Python divides by zero here; the
rational model returns the score computed with `avg = 0` instead, and no
theorem below depends on that region. -/
def assess_readability (text : List Char) : ℚ :=
  let words := pySplit text
  let sentences := reSplit isSentenceSep text
  if words.isEmpty || sentences.isEmpty then 0 else
  let avgWordsPerSentence : ℚ :=
    (words.length : ℚ) / (((sentences.filter (fun s => !(pyStrip s).isEmpty)).length : ℚ))
  let sentenceLengths := sentenceLengthsOf text
  let lengthVariance := if sentenceLengths.length > 1 then sampleVariance sentenceLengths else 0
  let complexWords := words.countP (fun w => decide (w.length > 6))
  let complexityRatio : ℚ := (complexWords : ℚ) / (words.length : ℚ)
  let score : ℚ := 1
  let score := if avgWordsPerSentence > 25 then score - 3/10
    else if avgWordsPerSentence > 20 then score - 1/10 else score
  let score := if lengthVariance > 10 then score + 1/10 else score
  let score := if complexityRatio > 3/10 then score - 1/5 else score
  max 0 (min 1 score)

/-- The six transition words of `_assess_story_structure`. -/
def transition_words_struct : List (List Char) :=
  [lc "meanwhile", lc "later", lc "suddenly", lc "then", lc "after", lc "before"]

/-- Embedding of `QualityAssessor._assess_story_structure`. -/
def assess_story_structure (text : List Char) : ℚ :=
  let paragraphs := paragraphsOf text
  if paragraphs.isEmpty then 0 else
  let score : ℚ := 1/2
  let score := if paragraphs.length ≥ 3 then score + 1/5 else score
  let transitions :=
    (paragraphs.map (fun p => transition_words_struct.countP (fun w => containsSub w (lowerL p)))).sum
  let score := if transitions > 0 then score + min (1/5) ((transitions : ℚ) * (1/20)) else score
  let paraLengths := paragraphs.map (fun p => ((pySplit p).length : ℚ))
  let score := if !paraLengths.isEmpty then
      (if 50 ≤ pyMean paraLengths ∧ pyMean paraLengths ≤ 150 then score + 1/10 else score)
    else score
  min 1 score

/-- The stop-word set subtracted from capitalised words in
`_assess_character_consistency`. -/
def commonWords9 : List (List Char) :=
  [lc "The", lc "This", lc "That", lc "Then", lc "When", lc "Where", lc "What", lc "Who", lc "How"]

/-- Embedding of `re.findall(r'\b[A-Z][a-z]+\b', text)`: exactly the maximal
`\w`-runs that consist of one upper-case letter followed by one or more
lower-case letters (the surrounding `\b` forces whole-run matches). -/
def findCapWords (text : List Char) : List (List Char) :=
  (runsC isWordChar text).filter (fun r =>
    match r with
    | c :: rest => isUpperChar c && !rest.isEmpty && rest.all isLowerChar
    | [] => false)

/-- Remainder of the text after the closing quote of `"[^"]*"` (greedy
`[^"]*` stops at the first quote), or `none` if the quote never closes. -/
def afterClosingQuote : List Char → Option (List Char)
  | [] => none
  | c :: cs => if c = '"' then some cs else afterClosingQuote cs

/-- Matcher for the group alternative `[A-Z][a-z]+\s+said` at the head of
the remaining text (greedy runs with mandatory one-or-more parts). -/
def nameThenSaid : List Char → Bool
  | [] => false
  | c :: rest =>
    isUpperChar c &&
    !(rest.takeWhile isLowerChar).isEmpty &&
    (let r2 := rest.dropWhile isLowerChar
     !(r2.takeWhile isSpaceChar).isEmpty &&
     (lc "said").isPrefixOf (r2.dropWhile isSpaceChar))

/-- Matcher for the group alternative `said\s+[A-Z][a-z]+` at the head of
the remaining text. -/
def saidThenName (r : List Char) : Bool :=
  (lc "said").isPrefixOf r &&
  (let r2 := (r.drop 4).dropWhile isSpaceChar
   !((r.drop 4).takeWhile isSpaceChar).isEmpty &&
   (match r2 with
    | c :: rest => isUpperChar c && !(rest.takeWhile isLowerChar).isEmpty
    | [] => false))

/-- Non-emptiness of
`re.findall(r'"[^"]*"\s*([A-Z][a-z]+\s+said|said\s+[A-Z][a-z]+)', text)`
(the code only tests whether any match exists). -/
def hasDialogueAttribution : List Char → Bool
  | [] => false
  | c :: cs =>
    (c = '"' &&
      (match afterClosingQuote cs with
       | some rest =>
         let r := rest.dropWhile isSpaceChar
         nameThenSaid r || saidThenName r
       | none => false)) ||
    hasDialogueAttribution cs

/-- Non-emptiness of
`re.findall(r'([A-Z][a-z]+)\s+(walked|ran|said|looked|turned)', text)`. -/
def hasActionPattern : List Char → Bool
  | [] => false
  | c :: cs =>
    (isUpperChar c &&
      !(cs.takeWhile isLowerChar).isEmpty &&
      (let r2 := cs.dropWhile isLowerChar
       !(r2.takeWhile isSpaceChar).isEmpty &&
       (let r3 := r2.dropWhile isSpaceChar
        (lc "walked").isPrefixOf r3 || (lc "ran").isPrefixOf r3 ||
        (lc "said").isPrefixOf r3 || (lc "looked").isPrefixOf r3 ||
        (lc "turned").isPrefixOf r3))) ||
    hasActionPattern cs

/-- Embedding of `QualityAssessor._assess_character_consistency`. -/
def assess_character_consistency (text : List Char) : ℚ :=
  let names := (pyDedup (findCapWords text)).filter (fun n => !(commonWords9.contains n))
  if names.isEmpty then 7/10 else
  let score : ℚ := 1/2
  let score := if hasDialogueAttribution text then score + 1/5 else score
  let score := if hasActionPattern text then score + 1/5 else score
  min 1 score

/-- Embedding of `QualityAssessor._assess_pacing`. -/
def assess_pacing (text : List Char) : ℚ :=
  let sentenceLengths := sentenceLengthsOf text
  if sentenceLengths.isEmpty then 0 else
  let score : ℚ := 1/2
  let score := if sentenceLengths.length > 1 ∧ sampleVariance sentenceLengths > 20
    then score + 3/10 else score
  let shortSentences := sentenceLengths.countP (fun n => decide (n ≤ 5))
  let score := if shortSentences > 0 then score + min (1/5) ((shortSentences : ℚ) * (1/50))
    else score
  min 1 score

/-- Matcher for the alternative `"[^"]*"\s*[a-z]+\s+said` (IGNORECASE)
at the head of the text: returns the remainder after the match. -/
def matchTagA : List Char → Option (List Char)
  | [] => none
  | c :: cs =>
    if c = '"' then
      match afterClosingQuote cs with
      | some rest =>
        let r := rest.dropWhile isSpaceChar
        if (r.takeWhile isAlphaChar).isEmpty then none
        else
          let r2 := r.dropWhile isAlphaChar
          if (r2.takeWhile isSpaceChar).isEmpty then none
          else
            let r3 := r2.dropWhile isSpaceChar
            if ciPrefixOf (lc "said") r3 then some (r3.drop 4) else none
      | none => none
    else none

/-- Matcher for the alternative `said\s+[a-z]+` (IGNORECASE) at the head
of the text: returns the remainder after the match. -/
def matchTagB (s : List Char) : Option (List Char) :=
  if ciPrefixOf (lc "said") s then
    let r := s.drop 4
    if (r.takeWhile isSpaceChar).isEmpty then none
    else
      let r2 := r.dropWhile isSpaceChar
      if (r2.takeWhile isAlphaChar).isEmpty then none
      else some (r2.dropWhile isAlphaChar)
  else none

/-- Worker counting non-overlapping matches of
`"[^"]*"\s*[a-z]+\s+said|said\s+[a-z]+` (IGNORECASE), first alternative
tried first, scanning resuming after each match. -/
def countTagsFuel : Nat → List Char → Nat
  | 0, _ => 0
  | _, [] => 0
  | fuel + 1, s@(_ :: cs) =>
    match matchTagA s with
    | some rest => 1 + countTagsFuel fuel rest
    | none =>
      match matchTagB s with
      | some rest => 1 + countTagsFuel fuel rest
      | none => countTagsFuel fuel cs

/-- Embedding of `len(re.findall(r'"[^"]*"\s*[a-z]+\s+said|said\s+[a-z]+', text,
re.IGNORECASE))`. -/
def countDialogueTags (text : List Char) : Nat := countTagsFuel text.length text

/-- Embedding of `QualityAssessor._assess_dialogue_effectiveness`. -/
def assess_dialogue_effectiveness (text : List Char) : ℚ :=
  let dialogueMatches := findQuoted text
  if dialogueMatches.isEmpty then 3/5 else
  let score : ℚ := 1/2
  let dialogueLengths := dialogueMatches.map (fun d => ((pySplit d).length : ℚ))
  let score := if dialogueLengths.length > 1 ∧ sampleVariance dialogueLengths > 5
    then score + 1/5 else score
  let tagRatio : ℚ := (countDialogueTags text : ℚ) / (dialogueMatches.length : ℚ)
  let score := if 3/10 ≤ tagRatio ∧ tagRatio ≤ 7/10 then score + 1/5 else score
  let contractions := dialogueMatches.countP (fun d => d.contains '\'')
  let score := if contractions > 0 then score + 1/10 else score
  min 1 score

/-- The ten transition words of `_assess_narrative_flow`. -/
def transition_words_flow : List (List Char) :=
  [lc "however", lc "meanwhile", lc "therefore", lc "consequently", lc "furthermore",
   lc "additionally", lc "moreover", lc "nevertheless", lc "nonetheless", lc "thus"]

/-- Embedding of `QualityAssessor._assess_narrative_flow`. -/
def assess_narrative_flow (text : List Char) : ℚ :=
  let paragraphs := paragraphsOf text
  if paragraphs.length < 2 then 1/2 else
  let score : ℚ := 1/2
  let transitionsFound := (paragraphs.drop 1).countP (fun p =>
    let firstSentence := lowerL ((splitChar '.' p []).headD [])
    transition_words_flow.any (fun w => containsSub w firstSentence))
  let score := if transitionsFound > 0
    then score + min (3/10) ((transitionsFound : ℚ) * (1/10)) else score
  min 1 score

/-- The thirteen tension words of `_assess_tension`. -/
def tension_words : List (List Char) :=
  [lc "suddenly", lc "urgent", lc "danger", lc "fear", lc "panic", lc "rush", lc "quick",
   lc "immediately", lc "emergency", lc "crisis", lc "threat", lc "worried", lc "anxious"]

/-- Embedding of `QualityAssessor._assess_tension`. -/
def assess_tension (text : List Char) : ℚ :=
  let score : ℚ := 1/2
  let tensionCount := tension_words.countP (fun w => containsSub w (lowerL text))
  let score := if tensionCount > 0 then score + min (3/10) ((tensionCount : ℚ) * (1/20))
    else score
  let sentences := reSplit isSentenceSep text
  let shortSentences := sentences.countP (fun s =>
    decide ((pySplit s).length ≤ 5) && !(pyStrip s).isEmpty)
  let score := if shortSentences > 0 then score + min (1/5) ((shortSentences : ℚ) * (1/50))
    else score
  min 1 score

/-- The six weak verbs of `_assess_prose_quality`. -/
def weak_verbs_assess : List (List Char) :=
  [lc "went", lc "said", lc "looked", lc "walked", lc "was", lc "were"]

/-- Embedding of `QualityAssessor._assess_prose_quality`. -/
def assess_prose_quality (text : List Char) : ℚ :=
  let words := pySplit text
  if words.isEmpty then 0 else
  let score : ℚ := 1/2
  let varietyRatio : ℚ := ((pyDedup (words.map lowerL)).length : ℚ) / (words.length : ℚ)
  let score := if varietyRatio > 1/2 then score + 1/5 else score
  let adverbs := words.countP (fun w => (lc "ly").isSuffixOf w)
  let adverbRatio : ℚ := (adverbs : ℚ) / (words.length : ℚ)
  let score := if adverbRatio < 1/20 then score + 1/10
    else if adverbRatio > 1/10 then score - 1/10 else score
  let weakVerbCount := words.countP (fun w => weak_verbs_assess.contains (lowerL w))
  let score := if (weakVerbCount : ℚ) / (words.length : ℚ) < 1/10 then score + 1/5 else score
  max 0 (min 1 score)

/-- Embedding of `QualityAssessor.assess_quality`: the eight sub-scores plus their
arithmetic mean.  (The Python code computes each sub-score once and
reuses it; writing each field as its own call is definitionally the same
pure computation.) -/
def assess_quality (text : List Char) : QualityMetrics :=
  ⟨assess_readability text,
   assess_story_structure text,
   assess_character_consistency text,
   assess_pacing text,
   assess_dialogue_effectiveness text,
   assess_narrative_flow text,
   assess_tension text,
   assess_prose_quality text,
   (assess_readability text + assess_story_structure text +
    assess_character_consistency text + assess_pacing text +
    assess_dialogue_effectiveness text + assess_narrative_flow text +
    assess_tension text + assess_prose_quality text) / 8⟩

/-- Embedding of `ProblemAnalyzer._analyze_structural_issues`. -/
def analyze_structural_issues (text : List Char) : List (List Char) :=
  let paragraphs := paragraphsOf text
  let issues := if paragraphs.length < 3
    then [lc "Chapter may be too short or lack proper structure"] else []
  let longParagraphs := paragraphs.filter (fun p => decide ((pySplit p).length > 200))
  let issues := issues ++ (if !longParagraphs.isEmpty
    then [lc "Found " ++ natL longParagraphs.length ++ lc " overly long paragraphs"] else [])
  let shortParagraphs := paragraphs.filter (fun p => decide ((pySplit p).length < 10))
  issues ++ (if (shortParagraphs.length : ℚ) > (paragraphs.length : ℚ) * (3/10)
    then [lc "Too many very short paragraphs - may indicate choppy structure"] else [])

/-- First-person indicators of `_analyze_narrative_issues` (checked
case-sensitively against the raw text). -/
def first_person_indicators : List (List Char) := [lc "I ", lc "me ", lc "my ", lc "mine "]

/-- Third-person indicators of `_analyze_narrative_issues`. -/
def third_person_indicators : List (List Char) :=
  [lc "he ", lc "she ", lc "they ", lc "his ", lc "her ", lc "their "]

/-- Past-tense indicators of `_analyze_narrative_issues` (counted on the
lowered text). -/
def past_tense_indicators : List (List Char) := [lc "was", lc "were", lc "had", lc "did"]

/-- Present-tense indicators of `_analyze_narrative_issues`. -/
def present_tense_indicators : List (List Char) := [lc "is", lc "are", lc "has", lc "does"]

/-- Embedding of `ProblemAnalyzer._analyze_narrative_issues`. -/
def analyze_narrative_issues (text : List Char) : List (List Char) :=
  let hasFirst := first_person_indicators.any (fun w => containsSub w text)
  let hasThird := third_person_indicators.any (fun w => containsSub w text)
  let issues := if hasFirst && hasThird
    then [lc "Potential POV inconsistency - mixing first and third person"] else []
  let pastCount : Int := (past_tense_indicators.map (fun w => (countSub w (lowerL text) : Int))).sum
  let presentCount : Int :=
    (present_tense_indicators.map (fun w => (countSub w (lowerL text) : Int))).sum
  issues ++ (if pastCount > 0 ∧ presentCount > 0 ∧ |pastCount - presentCount| < min pastCount presentCount
    then [lc "Potential tense inconsistency"] else [])

/-- The eleven-word stop-word set of `_analyze_character_issues`. -/
def commonWords11 : List (List Char) := commonWords9 ++ [lc "But", lc "And"]

/-- The attribution verbs of `_analyze_character_issues`, in alternation
order. -/
def attribution_verbs : List (List Char) :=
  [lc "said", lc "asked", lc "replied", lc "whispered", lc "shouted"]

/-- Scan after a closed quote for the earliest attribution verb reachable
through non-quote characters (the lazy `[^"]*?` before the verb group);
stops at a quote or at the end of the text. -/
def findVerbAfter : Nat → List Char → Option (List Char)
  | 0, _ => none
  | _, [] => none
  | fuel + 1, s@(c :: cs) =>
    if c = '"' then none
    else
      match attribution_verbs.findSome?
        (fun v => if ciPrefixOf v s then some (s.drop v.length) else none) with
      | some rest => some rest
      | none => findVerbAfter fuel cs

/-- Matcher at the head of the text for
`"[^"]*"\s*[^"]*?(said|asked|replied|whispered|shouted)` (IGNORECASE);
`\s*` and the lazy `[^"]*?` together reach exactly the positions joined
to the closing quote by non-quote characters. -/
def matchAttributed : List Char → Option (List Char)
  | [] => none
  | c :: cs =>
    if c = '"' then
      match afterClosingQuote cs with
      | some rest => findVerbAfter rest.length rest
      | none => none
    else none

/-- Worker counting the non-overlapping attribution matches. -/
def countAttributedFuel : Nat → List Char → Nat
  | 0, _ => 0
  | _, [] => 0
  | fuel + 1, s@(_ :: cs) =>
    match matchAttributed s with
    | some rest => 1 + countAttributedFuel fuel rest
    | none => countAttributedFuel fuel cs

/-- Embedding of `len(re.findall(r'"[^"]*"\s*[^"]*?(said|asked|replied|whispered|shouted)',
text, re.IGNORECASE))`. -/
def countAttributed (text : List Char) : Nat := countAttributedFuel text.length text

/-- Embedding of `ProblemAnalyzer._analyze_character_issues`. -/
def analyze_character_issues (text : List Char) : List (List Char) :=
  let names := (pyDedup (findCapWords text)).filter (fun n => !(commonWords11.contains n))
  let issues := if names.length > 10
    then [lc "Too many character names introduced - may confuse readers"] else []
  let dialogueLines := findQuoted text
  issues ++ (if (!dialogueLines.isEmpty) ∧
      (countAttributed text : ℚ) < (dialogueLines.length : ℚ) * (3/10)
    then [lc "Many dialogue lines lack clear attribution"] else [])

/-- Embedding of `ProblemAnalyzer._analyze_pacing_issues`. -/
def analyze_pacing_issues (text : List Char) : List (List Char) :=
  let sentenceLengths := sentenceLengthsOf text
  if sentenceLengths.isEmpty then [] else
  let avgLength := pyMean sentenceLengths
  let issues := if avgLength > 25 then [lc "Sentences are too long on average - may slow pacing"]
    else if avgLength < 8 then [lc "Sentences are too short on average - may feel choppy"]
    else []
  issues ++ (if sentenceLengths.length > 5 ∧ sampleVariance sentenceLengths < 10
    then [lc "Lack of sentence length variety - monotonous pacing"] else [])

/-- Embedding of `ProblemAnalyzer._analyze_dialogue_issues`. -/
def analyze_dialogue_issues (text : List Char) : List (List Char) :=
  let dialogueMatches := findQuoted text
  if dialogueMatches.isEmpty then [] else
  let longDialogue := dialogueMatches.filter (fun d => decide ((pySplit d).length > 50))
  let issues := if !longDialogue.isEmpty
    then [lc "Found " ++ natL longDialogue.length ++ lc " overly long dialogue segments"] else []
  let contractions := dialogueMatches.countP (fun d => d.contains '\'')
  let issues := issues ++ (if contractions = 0 ∧ dialogueMatches.length > 3
    then [lc "Dialogue lacks contractions - may sound unnatural"] else [])
  let saidCount := countSub (lc " said") (lowerL text)
  issues ++ (if (saidCount : ℚ) > (dialogueMatches.length : ℚ) * (4/5)
    then [lc "Overuse of 'said' - dialogue tags lack variety"] else [])

/-- The six weak verbs of `_analyze_prose_issues` (matched as whole
words, case-sensitively, via `words.count(verb)`). -/
def weak_verbs_analyze : List (List Char) :=
  [lc "went", lc "got", lc "put", lc "look", lc "come", lc "go"]

/-- The repetition stop-word list of `_analyze_prose_issues`. -/
def repetition_stopwords : List (List Char) :=
  [lc "that", lc "with", lc "have", lc "this", lc "they", lc "were", lc "been"]

/-- Embedding of `ProblemAnalyzer._analyze_prose_issues`.  The `word_freq` dict is
modelled by the list of lowered words of length `> 4` deduplicated in
first-occurrence order (Python dict insertion order) paired with their
counts. -/
def analyze_prose_issues (text : List Char) : List (List Char) :=
  let words := pySplit text
  if words.isEmpty then [] else
  let adverbs := words.filter (fun w => (lc "ly").isSuffixOf w)
  let issues := if (adverbs.length : ℚ) / (words.length : ℚ) > 1/10
    then [lc "Excessive use of adverbs (" ++ natL adverbs.length ++
          lc " found) - consider stronger verbs"] else []
  let weakVerbCount := (weak_verbs_analyze.map (fun v => words.count v)).sum
  let issues := issues ++ (if (weakVerbCount : ℚ) > (words.length : ℚ) * (1/20)
    then [lc "Overuse of weak verbs - consider more specific alternatives"] else [])
  let loweredWords := words.map lowerL
  let freqKeys := pyDedup (loweredWords.filter (fun w => decide (w.length > 4)))
  let repeated := (freqKeys.map (fun k => (k, loweredWords.count k))).filter
    (fun kc => decide (kc.2 > 5) && !(repetition_stopwords.contains kc.1))
  issues ++ (if !repeated.isEmpty
    then [lc "Repetitive word usage: " ++
          joinSep (lc ", ") ((repeated.take 3).map
            (fun kc => kc.1 ++ lc "(" ++ natL kc.2 ++ lc ")"))] else [])

/-- Embedding of `ProblemAnalyzer.analyze_problems`. -/
def analyze_problems (text : List Char) : ProblemAnalysis :=
  let structural := analyze_structural_issues text
  let narrative := analyze_narrative_issues text
  let character := analyze_character_issues text
  let pacing := analyze_pacing_issues text
  let dialogue := analyze_dialogue_issues text
  let prose := analyze_prose_issues text
  let totalIssues := structural.length + narrative.length + character.length +
    pacing.length + dialogue.length + prose.length
  ⟨structural, narrative, character, pacing, dialogue, prose,
   min 1 ((totalIssues : ℚ) / 20)⟩

/-- Embedding of `re.match(r'^Chapter\s+\d+', line, re.IGNORECASE)` — also covering
the pattern `^CHAPTER\s+\d+`, identical under IGNORECASE. -/
def matchChapterNum (l : List Char) : Bool :=
  ciPrefixOf (lc "chapter") l &&
  (let r := l.drop 7
   !(r.takeWhile isSpaceChar).isEmpty &&
   (match r.dropWhile isSpaceChar with | c :: _ => c.isDigit | [] => false))

/-- Embedding of `re.match(r'^\d+\.', line)`: one or more digits then a dot. -/
def matchNumDot (l : List Char) : Bool :=
  !(l.takeWhile Char.isDigit).isEmpty &&
  (match l.dropWhile Char.isDigit with | c :: _ => c = '.' | [] => false)

/-- Embedding of `re.match(r'^Part\s+\d+', line, re.IGNORECASE)` — also covering
`^PART\s+\d+`. -/
def matchPartNum (l : List Char) : Bool :=
  ciPrefixOf (lc "part") l &&
  (let r := l.drop 4
   !(r.takeWhile isSpaceChar).isEmpty &&
   (match r.dropWhile isSpaceChar with | c :: _ => c.isDigit | [] => false))

/-- Embedding of `re.match(r'^\*\s*\*\s*\*', line)`. -/
def matchStars : List Char → Bool
  | c :: rest =>
    c = '*' &&
    (match rest.dropWhile isSpaceChar with
     | d :: rest2 =>
       d = '*' &&
       (match rest2.dropWhile isSpaceChar with | e :: _ => e = '*' | [] => false)
     | [] => false)
  | [] => false

/-- Embedding of `re.match(r'^-{3,}', line)`: a prefix match needs only three dashes. -/
def matchDashes (l : List Char) : Bool := (lc "---").isPrefixOf l

/-- Worker for `^#{1,3}\s`: after the first hash, up to `budget` further
hashes may precede the mandatory whitespace. -/
def hashAux : List Char → Nat → Bool
  | c :: r, budget + 1 =>
    if isSpaceChar c then true
    else if c = '#' then hashAux r budget
    else false
  | c :: _, 0 => isSpaceChar c
  | [], _ => false

/-- Embedding of `re.match(r'^#{1,3}\s', line)`. -/
def matchHash : List Char → Bool
  | '#' :: rest => hashAux rest 2
  | _ => false

/-- One pass over `ChapterDetector.chapter_patterns`: true when any of
the eight patterns matches the stripped line (all tested with
IGNORECASE; the first match breaks the loop, so only existence
matters). -/
def lineMatches (l : List Char) : Bool :=
  matchChapterNum l || matchNumDot l || matchPartNum l ||
  matchStars l || matchDashes l || matchHash l

/-- The case-sensitive `re.match(r'^(Chapter|CHAPTER)\s+\d+', line)` used
only by `_calculate_confidence` (no IGNORECASE flag there). -/
def matchChapterExact (l : List Char) : Bool :=
  ((lc "Chapter").isPrefixOf l || (lc "CHAPTER").isPrefixOf l) &&
  (let r := l.drop 7
   !(r.takeWhile isSpaceChar).isEmpty &&
   (match r.dropWhile isSpaceChar with | c :: _ => c.isDigit | [] => false))

/-- Embedding of `ChapterDetector._get_position_at_line`:
`sum(len(line) + 1 for line in text.split('\n')[:line_number])`. -/
def positionAtLine (ms : List Char) (n : Nat) : Nat :=
  (((splitChar '\n' ms []).take n).map (fun l => l.length + 1)).sum

/-- Embedding of `ChapterDetector._extract_chapter_title`: the four anchored
`re.sub` prefix strips, then `strip()`; empty result becomes `None`. -/
def extract_chapter_title (line : List Char) : Option (List Char) :=
  let t1 :=
    if ciPrefixOf (lc "chapter") line || ciPrefixOf (lc "part") line then
      let r := if ciPrefixOf (lc "chapter") line then line.drop 7 else line.drop 4
      let r := (r.dropWhile isSpaceChar).dropWhile Char.isDigit
      let r := match r with | ':' :: rest => rest | _ => r
      r.dropWhile isSpaceChar
    else line
  let t2 :=
    if !(t1.takeWhile Char.isDigit).isEmpty then
      let r := t1.dropWhile Char.isDigit
      let r := match r with | '.' :: rest => rest | _ => r
      r.dropWhile isSpaceChar
    else t1
  let t3 :=
    if !(t2.takeWhile (fun c => c = '*' || c = '-')).isEmpty then
      (t2.dropWhile (fun c => c = '*' || c = '-')).dropWhile isSpaceChar
    else t2
  let t4 :=
    if !(t3.takeWhile (fun c => c = '#')).isEmpty then
      (t3.dropWhile (fun c => c = '#')).dropWhile isSpaceChar
    else t3
  let stripped := pyStrip t4
  if stripped.isEmpty then none else some stripped

/-- Embedding of `ChapterDetector._calculate_confidence`. -/
def calculate_confidence (line : List Char) (lineIndex : Nat)
    (allLines : List (List Char)) : ℚ :=
  let confidence : ℚ := 1/2
  let confidence := if matchChapterExact line then confidence + 2/5 else confidence
  let confidence :=
    if lineIndex > 0 ∧ (pyStrip (allLines.getD (lineIndex - 1) [])).isEmpty
    then confidence + 1/10 else confidence
  let confidence :=
    if lineIndex < allLines.length - 1 ∧ (pyStrip (allLines.getD (lineIndex + 1) [])).isEmpty
    then confidence + 1/10 else confidence
  min confidence 1

/-- Embedding of `chapters[-1].end_position = pos` on a non-empty accumulator, no-op
on an empty one (Python only assigns under `if chapters:`). -/
def setLastEnd : List ChapterBoundary → Nat → List ChapterBoundary
  | [], _ => []
  | [b], p => [⟨b.chapter_number, b.start_position, p, b.title, b.confidence⟩]
  | b :: c :: r, p => b :: setLastEnd (c :: r) p

/-- The line loop of `ChapterDetector.detect_chapters`: on a matching
stripped line, close the previous boundary at this line's start offset
and open a new one ending provisionally at the manuscript length. -/
def detectAux (ms : List Char) (allLines : List (List Char)) :
    List (List Char) → Nat → Nat → List ChapterBoundary → List ChapterBoundary
  | [], _, _, acc => acc
  | line :: rest, i, num, acc =>
    let ls := pyStrip line
    if lineMatches ls then
      let pos := positionAtLine ms i
      detectAux ms allLines rest (i + 1) (num + 1)
        (setLastEnd acc pos ++
          [⟨num, pos, ms.length, extract_chapter_title ls, calculate_confidence ls i allLines⟩])
    else detectAux ms allLines rest (i + 1) num acc

/-- Embedding of `ChapterDetector.detect_chapters`, including the whole-manuscript
fallback boundary when no line matches. -/
def detect_chapters (ms : List Char) : List ChapterBoundary :=
  let lines := splitChar '\n' ms []
  let chapters := detectAux ms lines lines 0 1 []
  if chapters.isEmpty then [⟨1, 0, ms.length, none, 1⟩] else chapters

/-- Python `repr` of a string: quote delimiters chosen as CPython does
for strings without backslashes, control characters or double quotes —
the fragment produced by the analyzer's issue messages (a double-quote
delimiter when the string holds an apostrophe, an apostrophe delimiter
otherwise). -/
def pyRepr (s : List Char) : List Char :=
  if '\'' ∈ s then '"' :: s ++ ['"'] else '\'' :: s ++ ['\'']

/-- Comma-separated reprs inside Python's `str` of a list. -/
def pyStrInner : List (List Char) → List Char
  | [] => []
  | [x] => pyRepr x
  | x :: y :: ys => pyRepr x ++ ',' :: ' ' :: pyStrInner (y :: ys)

/-- Python `str(list_of_strings)`, as interrogated by
`'needle' in str(problems.prose_issues)` in the rewrite tiers. -/
def pyStrOfList (xs : List (List Char)) : List Char := '[' :: pyStrInner xs ++ [']']

/-- Drop a maximal `\w`-run when `re.sub(r'\b\w+ly\b', ...)` replaces it
by the empty string: the lambda erases matches longer than six
characters and keeps the rest, and the `\b` anchors make matches exactly
the maximal word runs ending in `ly`. -/
def adverbDrop (w : List Char) : List Char :=
  if (lc "ly").isSuffixOf w && decide (w.length > 6) then [] else w

/-- Apply `adverbDrop` to every maximal word run of the text, keeping
non-word characters verbatim; the accumulator holds the current word run
reversed. -/
def stripLongAdverbsAux : List Char → List Char → List Char
  | [], acc => adverbDrop acc.reverse
  | c :: cs, acc =>
    if isWordChar c then stripLongAdverbsAux cs (c :: acc)
    else adverbDrop acc.reverse ++ c :: stripLongAdverbsAux cs []

/-- The adverb-stripping substitution of `_light_rewrite`. -/
def stripLongAdverbs (t : List Char) : List Char := stripLongAdverbsAux t []

/-- Embedding of `re.sub(r'\s+', ' ', text)`: each maximal whitespace run becomes a
single space (`inRun` is true inside a whitespace run). -/
def collapseWsAux : List Char → Bool → List Char
  | [], _ => []
  | c :: cs, inRun =>
    if isSpaceChar c then
      (if inRun then collapseWsAux cs true else ' ' :: collapseWsAux cs true)
    else c :: collapseWsAux cs false

/-- The whitespace clean-up of `_light_rewrite`. -/
def collapseWhitespace (t : List Char) : List Char := collapseWsAux t false

/-- The rotating alternative dialogue tags of `_light_rewrite`. -/
def said_alternatives : List (List Char) :=
  [lc "replied", lc "asked", lc "whispered", lc "murmured", lc "stated"]

/-- The tag-variety loop of `_light_rewrite`: one first-occurrence
replacement of `" said"` per alternative, in order. -/
def replaceSaidTags (t : List Char) : List Char :=
  said_alternatives.foldl (fun acc alt => replaceFirst (lc " said") (' ' :: alt) acc) t

/-- Embedding of `ChapterRewriter._light_rewrite`. -/
def light_rewrite (text : List Char) (problems : ProblemAnalysis) : List Char :=
  let rewritten := text
  let rewritten :=
    if containsSub (lc "Excessive use of adverbs") (pyStrOfList problems.prose_issues)
    then collapseWhitespace (stripLongAdverbs rewritten) else rewritten
  if containsSub (lc "Overuse of 'said'") (pyStrOfList problems.dialogue_issues)
  then replaceSaidTags rewritten else rewritten

/-- The six-word stop list of the name-restoration loop in
`_apply_preservation_controls` (distinct from `commonWords9`). -/
def nameStopwords : List (List Char) :=
  [lc "The", lc "This", lc "That", lc "Then", lc "When", lc "Where"]

/-- Embedding of `ChapterRewriter._apply_preservation_controls`.  Python iterates the
`missing_names` set in a hash-dependent order; the model iterates in
first-occurrence order, and every theorem about this function either
disables name preservation or involves at most one missing name, where
the order is immaterial. -/
def apply_preservation_controls (rewritten original : List Char)
    (controls : PreservationControls) : List Char :=
  let rw := controls.preserve_dialogue.foldl
    (fun rw d =>
      if containsSub d original && !containsSub d rw
      then rw ++ lc "\n\n" ++ d else rw)
    rewritten
  if controls.preserve_character_names then
    let rewrittenNames := pyDedup (findCapWords rw)
    let missingNames :=
      (pyDedup (findCapWords original)).filter (fun n => !(rewrittenNames.contains n))
    missingNames.foldl
      (fun rw name =>
        if !(nameStopwords.contains name) &&
           containsSub (' ' :: name ++ [' ']) original &&
           !containsSub (' ' :: name ++ [' ']) rw
        then replaceFirst (lc " he ") (' ' :: name ++ [' ']) rw
        else rw)
      rw
  else rw

/-- Embedding of `ChapterRewriter._generate_rewrite` at intensity LIGHT: the light
tier followed by preservation (skipped when no controls are given).  The
MODERATE tier extends this deterministically and the COMPREHENSIVE tier
additionally draws from Python's global `random`; the orchestrator
theorems below therefore quantify over an arbitrary generation step,
which covers every tier and every random draw. -/
def generate_rewrite_light (text : List Char) (problems : ProblemAnalysis)
    (controls : Option PreservationControls) : List Char :=
  let rewritten := light_rewrite text problems
  match controls with
  | some c => apply_preservation_controls rewritten text c
  | none => rewritten

/-- Embedding of `ChapterRewriter._identify_improvements`. -/
def identify_improvements (original nw : QualityMetrics) : List (List Char) :=
  (if nw.readability_score > original.readability_score
    then [lc "Improved readability"] else []) ++
  (if nw.story_structure_score > original.story_structure_score
    then [lc "Enhanced story structure"] else []) ++
  (if nw.character_consistency_score > original.character_consistency_score
    then [lc "Better character consistency"] else []) ++
  (if nw.pacing_score > original.pacing_score
    then [lc "Improved pacing"] else []) ++
  (if nw.dialogue_effectiveness_score > original.dialogue_effectiveness_score
    then [lc "Enhanced dialogue effectiveness"] else []) ++
  (if nw.narrative_flow_score > original.narrative_flow_score
    then [lc "Smoother narrative flow"] else []) ++
  (if nw.tension_score > original.tension_score
    then [lc "Increased tension and engagement"] else []) ++
  (if nw.prose_quality_score > original.prose_quality_score
    then [lc "Better prose quality"] else [])

/-- The plot keywords of `_identify_preserved_elements`. -/
def plot_keywords : List (List Char) :=
  [lc "discovered", lc "revealed", lc "decided", lc "realized", lc "remembered"]

/-- Embedding of `ChapterRewriter._identify_preserved_elements` (the preserved-name
set is listed in first-occurrence order; Python lists it in set order). -/
def identify_preserved_elements (original rewritten : List Char)
    (controls : Option PreservationControls) : List (List Char) :=
  (match controls with
   | some c =>
     (if c.preserve_character_names then
        let preservedNames := (pyDedup (findCapWords original)).filter
          (fun n => (pyDedup (findCapWords rewritten)).contains n)
        if !preservedNames.isEmpty
        then [lc "Character names: " ++ joinSep (lc ", ") (preservedNames.take 5)] else []
      else []) ++
     (if !c.preserve_dialogue.isEmpty then
        let preservedDialogue := c.preserve_dialogue.filter (fun d => containsSub d rewritten)
        if !preservedDialogue.isEmpty
        then [natL preservedDialogue.length ++ lc " specific dialogue segments"] else []
      else [])
   | none => []) ++
  (if !(plot_keywords.filter
        (fun w => containsSub w original && containsSub w rewritten)).isEmpty
   then [lc "Key plot developments"] else [])

/-- Embedding of `ChapterRewriter._calculate_improvements`. -/
def calculate_improvements (original final : QualityMetrics) : Improvements :=
  ⟨final.readability_score - original.readability_score,
   final.story_structure_score - original.story_structure_score,
   final.character_consistency_score - original.character_consistency_score,
   final.pacing_score - original.pacing_score,
   final.dialogue_effectiveness_score - original.dialogue_effectiveness_score,
   final.narrative_flow_score - original.narrative_flow_score,
   final.tension_score - original.tension_score,
   final.prose_quality_score - original.prose_quality_score,
   final.overall_score - original.overall_score⟩

/-- Embedding of `ChapterRewriter._identify_changes_made`. -/
def identify_changes_made (original rewritten : List Char)
    (problems : ProblemAnalysis) : List (List Char) :=
  let ow := (pySplit original).length
  let rw := (pySplit rewritten).length
  let changes :=
    if |(ow : ℚ) - (rw : ℚ)| > (ow : ℚ) * (1/10) then
      (if rw > ow then [lc "Expanded content (+" ++ natL (rw - ow) ++ lc " words)"]
       else [lc "Condensed content (-" ++ natL (ow - rw) ++ lc " words)"])
    else []
  let op := (splitNN original []).length
  let rp := (splitNN rewritten []).length
  let changes := changes ++ (if rp ≠ op
    then [lc "Restructured paragraphs (" ++ natL op ++ lc " → " ++ natL rp ++ lc ")"] else [])
  let od := (findQuoted original).length
  let rd := (findQuoted rewritten).length
  let changes := changes ++ (if rd ≠ od
    then [lc "Modified dialogue (" ++ natL od ++ lc " → " ++ natL rd ++ lc " segments)"]
    else [])
  let changes := changes ++ (problems.prose_issues.map (fun issue =>
    (if containsSub (lc "adverbs") issue
      then [lc "Reduced adverb usage for stronger prose"] else []) ++
    (if containsSub (lc "weak verbs") issue
      then [lc "Replaced weak verbs with stronger alternatives"] else []))).flatten
  let changes := changes ++ (problems.pacing_issues.map (fun issue =>
    if containsSub (lc "sentence length") issue
    then [lc "Improved sentence length variety for better pacing"] else [])).flatten
  changes ++ (problems.dialogue_issues.map (fun issue =>
    if containsSub (lc "said") issue
    then [lc "Varied dialogue tags for more engaging conversations"] else [])).flatten

/-- Python `manuscript[start:end]` for the boundary's span. -/
def sliceText (ms : List Char) (b : ChapterBoundary) : List Char :=
  (ms.drop b.start_position).take (b.end_position - b.start_position)

/-- Python `min(..., key=lambda x: x[1])` over a non-empty scored list:
the first element with the minimal key wins ties. -/
def pyMinBySnd (x : ChapterBoundary × ℚ) : List (ChapterBoundary × ℚ) → ChapterBoundary × ℚ
  | [] => x
  | y :: ys => if y.2 < x.2 then pyMinBySnd y ys else pyMinBySnd x ys

/-- Steps 1-2 of `ChapterRewriter.rewrite_chapter`: detection, the
defensive `No chapters detected` raise, and target-chapter selection —
`Chapter N not found` for an unmatched explicit number, lowest assessed
overall score (first on ties) for auto-selection. -/
def selectChapter (manuscript : List Char) (chapter_number : Option Int) :
    Except RewriteError ChapterBoundary :=
  match detect_chapters manuscript with
  | [] => .error .noChaptersDetected
  | c :: cs =>
    match chapter_number with
    | some n =>
      match (c :: cs).filter (fun b => (b.chapter_number : Int) == n) with
      | [] => .error (.chapterNotFound n)
      | t :: _ => .ok t
    | none =>
      .ok (pyMinBySnd (c, (assess_quality (sliceText manuscript c)).overall_score)
        (cs.map (fun b => (b, (assess_quality (sliceText manuscript b)).overall_score)))).1

/-- The bounded rewrite loop of `rewrite_chapter` (step 6), parameterised
over the generation step `gen` (see `generate_rewrite_light`).  The fuel
is the number of remaining iterations; the returned tuple is
`(current_text, problems, iterations, improvements_made)` — the
`improvements_made` log is accumulated by the Python loop but never read
afterwards. -/
def rewriteLoop (gen : List Char → ProblemAnalysis → List Char)
    (originalMetrics : QualityMetrics) :
    Nat → List Char → ProblemAnalysis → Nat → List (List Char) →
    List Char × ProblemAnalysis × Nat × List (List Char)
  | 0, current, problems, iterations, improvementsMade =>
    (current, problems, iterations, improvementsMade)
  | fuel + 1, current, problems, iterations, improvementsMade =>
    let rewrittenText := gen current problems
    let newMetrics := assess_quality rewrittenText
    if newMetrics.is_better_than originalMetrics then
      let improvementsMade := improvementsMade ++ identify_improvements originalMetrics newMetrics
      if newMetrics.overall_score > 9/10 then
        (rewrittenText, problems, iterations + 1, improvementsMade)
      else
        let problems := analyze_problems rewrittenText
        if problems.severity_score < 1/5 then
          (rewrittenText, problems, iterations + 1, improvementsMade)
        else rewriteLoop gen originalMetrics fuel rewrittenText problems (iterations + 1)
          improvementsMade
    else rewriteLoop gen originalMetrics fuel current problems (iterations + 1) improvementsMade

/-- Embedding of `ChapterRewriter.rewrite_chapter`, parameterised over the generation
step `gen` standing for `_generate_rewrite` with the chosen intensity
and controls applied (the COMPREHENSIVE tier consults Python's global
`random`, so the engine enters the model as a function; the preservation
controls are still passed separately because step 7 reads them when
building the report). -/
def rewrite_chapter (gen : List Char → ProblemAnalysis → List Char)
    (manuscript : List Char) (chapter_number : Option Int)
    (preservation_controls : Option PreservationControls) (max_iterations : Nat) :
    Except RewriteError (List Char × RewriteReport) :=
  match selectChapter manuscript chapter_number with
  | .error e => .error e
  | .ok targetChapter =>
    let originalText := sliceText manuscript targetChapter
    let originalMetrics := assess_quality originalText
    let problems := analyze_problems originalText
    let r := rewriteLoop gen originalMetrics max_iterations originalText problems 0 []
    let currentText := r.1
    let finalMetrics := assess_quality currentText
    .ok (currentText,
      ⟨originalMetrics, finalMetrics,
       identify_changes_made originalText currentText r.2.1,
       calculate_improvements originalMetrics finalMetrics,
       r.2.2.1,
       identify_preserved_elements originalText currentText preservation_controls⟩)

/-- The chapter text `rewrite_chapter` operates on (empty on a selection
error, which the orchestrator theorems treat vacuously). -/
def chapterTextOf (ms : List Char) (cn : Option Int) : List Char :=
  match selectChapter ms cn with
  | .ok c => sliceText ms c
  | .error _ => []

/-- The baseline metrics of step 4 of `rewrite_chapter`. -/
def baselineMetrics (ms : List Char) (cn : Option Int) : QualityMetrics :=
  assess_quality (chapterTextOf ms cn)

/-- Statement helper: the returned report's overall improvement is
non-negative (vacuous on a selection error). -/
def overallImprovementNonneg (x : Except RewriteError (List Char × RewriteReport)) : Prop :=
  match x with
  | .ok tr => tr.2.improvements.overall ≥ 0
  | .error _ => True

/-- Statement helper: the returned text is the original chapter and every
improvement delta is zero (vacuous on a selection error). -/
def returnsOriginalWithZeroDeltas (ms : List Char) (cn : Option Int)
    (x : Except RewriteError (List Char × RewriteReport)) : Prop :=
  match x with
  | .ok tr => tr.1 = chapterTextOf ms cn ∧ tr.2.improvements = ⟨0, 0, 0, 0, 0, 0, 0, 0, 0⟩
  | .error _ => True

/-- Statement helper: the returned report has `final_metrics` equal to
`original_metrics` and exactly one iteration (vacuous on a selection
error). -/
def finalEqOriginalAndOneIteration (x : Except RewriteError (List Char × RewriteReport)) : Prop :=
  match x with
  | .ok tr => tr.2.final_metrics = tr.2.original_metrics ∧ tr.2.iterations_required = 1
  | .error _ => True

/-- Membership form of substring occurrence: `l = u ++ p ++ v`. -/
def occursIn (p l : List Char) : Prop := ∃ u v, l = u ++ p ++ v

/-- The per-chapter-number consecutive-numbering predicate used to state
the detector invariant. -/
def numberedFrom : Nat → List ChapterBoundary → Prop
  | _, [] => True
  | k, b :: bs => b.chapter_number = k ∧ numberedFrom (k + 1) bs

/-- The boundary-chaining predicate: adjacent boundaries meet, and the
last one ends at `L`. -/
def chainedTo (L : Nat) : List ChapterBoundary → Prop
  | [] => True
  | [b] => b.end_position = L
  | a :: b :: r => a.end_position = b.start_position ∧ chainedTo L (b :: r)

theorem isPrefixOf_iff_exists {p l : List Char} :
    p.isPrefixOf l = true ↔ ∃ t, l = p ++ t := by
  induction p generalizing l with
  | nil => simp [List.isPrefixOf]
  | cons a as ih =>
    cases l with
    | nil => simp [List.isPrefixOf]
    | cons b bs =>
      simp only [List.isPrefixOf, Bool.and_eq_true, beq_iff_eq, ih]
      constructor
      · rintro ⟨rfl, t, rfl⟩; exact ⟨t, rfl⟩
      · rintro ⟨t, h⟩
        injection h with h1 h2
        exact ⟨h1.symm, t, h2⟩

theorem containsSub_iff {p l : List Char} : containsSub p l = true ↔ occursIn p l := by
  induction l with
  | nil =>
    simp only [containsSub, occursIn, List.isEmpty_iff]
    constructor
    · rintro rfl; exact ⟨[], [], rfl⟩
    · rintro ⟨u, v, h⟩
      rcases List.append_eq_nil.mp h.symm with ⟨h1, h2⟩
      exact (List.append_eq_nil.mp h1).2
  | cons c t ih =>
    simp only [containsSub, Bool.or_eq_true, isPrefixOf_iff_exists, ih]
    constructor
    · rintro (⟨s, h⟩ | ⟨u, v, rfl⟩)
      · exact ⟨[], s, by simp [h]⟩
      · exact ⟨c :: u, v, rfl⟩
    · rintro ⟨u, v, h⟩
      cases u with
      | nil => exact Or.inl ⟨v, by simpa using h⟩
      | cons a as =>
        injection h with h1 h2
        exact Or.inr ⟨as, v, h2⟩

theorem occursIn_append_right {p a : List Char} (b : List Char) (h : occursIn p a) :
    occursIn p (a ++ b) := by
  obtain ⟨u, v, rfl⟩ := h
  exact ⟨u, v ++ b, by simp⟩

theorem occursIn_append_pat (a b : List Char) : occursIn b (a ++ b) :=
  ⟨a, [], by simp⟩

theorem containsSub_append_right {p a : List Char} (b : List Char)
    (h : containsSub p a = true) : containsSub p (a ++ b) = true :=
  containsSub_iff.mpr (occursIn_append_right b (containsSub_iff.mp h))

theorem containsSub_append_pat (a b : List Char) : containsSub b (a ++ b) = true :=
  containsSub_iff.mpr (occursIn_append_pat a b)

theorem mem_of_occursIn {p l : List Char} {c : Char} (h : occursIn p l) (hc : c ∈ p) :
    c ∈ l := by
  obtain ⟨u, v, rfl⟩ := h
  simp [hc]

theorem occursIn_nil_elim {p : List Char} (h : occursIn p []) : p = [] := by
  obtain ⟨u, v, huv⟩ := h
  rcases List.append_eq_nil.mp huv.symm with ⟨h1, _⟩
  exact (List.append_eq_nil.mp h1).2

theorem occursIn_length_le {p l : List Char} (h : occursIn p l) : p.length ≤ l.length := by
  obtain ⟨u, v, rfl⟩ := h
  simp
  omega

theorem prefix_total : ∀ (a : List Char) (b n r : List Char), a ++ b = n ++ r →
    (∃ t, n = a ++ t ∧ b = t ++ r) ∨ (∃ t, a = n ++ t ∧ r = t ++ b)
  | [], b, n, r, h => Or.inl ⟨n, rfl, by simpa using h⟩
  | c :: a', b, [], r, h => Or.inr ⟨c :: a', rfl, by simpa using h.symm⟩
  | c :: a', b, d :: n', r, h => by
    injection h with h1 h2
    rcases prefix_total a' b n' r h2 with ⟨t, hn, hb⟩ | ⟨t, ha, hr⟩
    · exact Or.inl ⟨t, by rw [hn, h1, List.cons_append], hb⟩
    · exact Or.inr ⟨t, by rw [ha, h1, List.cons_append], hr⟩

theorem occursIn_cons_elim {n : List Char} {c : Char} {t : List Char}
    (h : occursIn n (c :: t)) : (∃ r, c :: t = n ++ r) ∨ occursIn n t := by
  obtain ⟨u, v, huv⟩ := h
  cases u with
  | nil => exact Or.inl ⟨v, by simpa using huv⟩
  | cons a as =>
    injection huv with h1 h2
    exact Or.inr ⟨as, v, h2⟩

theorem occursIn_append_elim {n a b : List Char} (h : occursIn n (a ++ b)) :
    occursIn n a ∨ occursIn n b ∨
    ∃ s t, n = s ++ t ∧ s ≠ [] ∧ t ≠ [] ∧ (∃ u, a = u ++ s) ∧ (∃ v, b = t ++ v) := by
  obtain ⟨u, v, huv⟩ := h
  have huv' : u ++ (n ++ v) = a ++ b := by simpa using huv.symm
  rcases prefix_total u (n ++ v) a b huv' with ⟨t, ha, hnv⟩ | ⟨t, hu, hb⟩
  · rcases prefix_total n v t b hnv with ⟨t2, ht2, hv⟩ | ⟨t2, hn, hb⟩
    · exact Or.inl ⟨u, t2, by rw [ha, ht2]; simp⟩
    · cases t with
      | nil => exact Or.inr (Or.inl ⟨[], v, by simpa [hn] using hb⟩)
      | cons x xs =>
        cases t2 with
        | nil =>
          refine Or.inl ⟨u, [], ?_⟩
          rw [ha]
          simp at hn
          simp [hn]
        | cons y ys =>
          exact Or.inr (Or.inr ⟨x :: xs, y :: ys, hn, by simp, by simp, ⟨u, ha⟩, ⟨v, hb⟩⟩)
  · exact Or.inr (Or.inl ⟨t, v, by rw [hb]; simp⟩)

theorem isWordChar_eq_false_of_space {c : Char} (h : isSpaceChar c = true) :
    isWordChar c = false := by
  simp only [isSpaceChar, Bool.or_eq_true, decide_eq_true_eq] at h
  rcases h with ((((rfl | rfl) | rfl) | rfl) | rfl) | rfl <;> decide

theorem isSentenceSep_eq_false_of_space {c : Char} (h : isSpaceChar c = true) :
    isSentenceSep c = false := by
  simp only [isSpaceChar, Bool.or_eq_true, decide_eq_true_eq] at h
  rcases h with ((((rfl | rfl) | rfl) | rfl) | rfl) | rfl <;> decide

theorem ne_quote_of_space {c : Char} (h : isSpaceChar c = true) : c ≠ '"' := by
  simp only [isSpaceChar, Bool.or_eq_true, decide_eq_true_eq] at h
  rcases h with ((((rfl | rfl) | rfl) | rfl) | rfl) | rfl <;> decide

theorem lowerChar_space {c : Char} (h : isSpaceChar c = true) :
    isSpaceChar (lowerChar c) = true := by
  simp only [isSpaceChar, Bool.or_eq_true, decide_eq_true_eq] at h
  rcases h with ((((rfl | rfl) | rfl) | rfl) | rfl) | rfl <;> decide

theorem lowerL_all_space {t : List Char} (h : t.all isSpaceChar = true) :
    (lowerL t).all isSpaceChar = true := by
  apply List.all_eq_true.mpr
  intro c hc
  simp only [lowerL, List.mem_map] at hc
  obtain ⟨d, hd, rfl⟩ := hc
  exact lowerChar_space (List.all_eq_true.mp h d hd)

theorem runsAux_eq_nil {p : Char → Bool} {t : List Char} (h : ∀ c ∈ t, p c = false) :
    runsAux p t [] = [] := by
  induction t with
  | nil => simp [runsAux]
  | cons c cs ih =>
    have hc := h c (by simp)
    simp only [runsAux, hc, Bool.false_eq_true, if_false, List.isEmpty_nil, if_true]
    exact ih (fun d hd => h d (by simp [hd]))

theorem pySplit_eq_nil {t : List Char} (h : t.all isSpaceChar = true) : pySplit t = [] := by
  apply runsAux_eq_nil
  intro c hc
  simp [List.all_eq_true.mp h c hc]

theorem wordRuns_eq_nil {t : List Char} (h : t.all isSpaceChar = true) :
    runsC isWordChar t = [] :=
  runsAux_eq_nil (fun c hc => isWordChar_eq_false_of_space (List.all_eq_true.mp h c hc))

theorem reSplitAux_no_sep {isSep : Char → Bool} {t : List Char}
    (h : ∀ c ∈ t, isSep c = false) :
    ∀ acc, reSplitAux isSep t false acc = [acc.reverse ++ t] := by
  induction t with
  | nil => intro acc; simp [reSplitAux]
  | cons c cs ih =>
    intro acc
    have hc := h c (by simp)
    simp only [reSplitAux, hc, Bool.false_eq_true, if_false]
    rw [ih (fun d hd => h d (by simp [hd])) (c :: acc)]
    simp

theorem reSplit_no_sep {isSep : Char → Bool} {t : List Char}
    (h : ∀ c ∈ t, isSep c = false) : reSplit isSep t = [t] := by
  simpa [reSplit] using reSplitAux_no_sep h []

theorem pyStrip_eq_nil {t : List Char} (h : t.all isSpaceChar = true) : pyStrip t = [] := by
  unfold pyStrip
  rw [List.dropWhile_eq_nil_iff.mpr (fun c hc => List.all_eq_true.mp h c hc)]
  simp

theorem splitNN_chars : ∀ (t acc : List Char), ∀ p ∈ splitNN t acc, ∀ c ∈ p, c ∈ acc ∨ c ∈ t
  | [], acc => by
    intro p hp c hc
    simp [splitNN] at hp
    subst hp
    left; simpa using hc
  | [d], acc => by
    intro p hp c hc
    simp [splitNN] at hp
    subst hp
    simp at hc
    rcases hc with h | h
    · left; simpa using h
    · right; simp [h]
  | a :: b :: rest, acc => by
    intro p hp c hc
    by_cases hab : a = '\n' && b = '\n'
    · simp only [splitNN, hab, if_true, List.mem_cons] at hp
      rcases hp with h | h
      · subst h; left; simpa using hc
      · rcases splitNN_chars rest [] p h c hc with h' | h'
        · simp at h'
        · right; simp [h']
    · simp only [splitNN, hab, Bool.false_eq_true, if_false] at hp
      rcases splitNN_chars (b :: rest) (a :: acc) p hp c hc with h' | h'
      · simp only [List.mem_cons] at h'
        rcases h' with h'' | h''
        · right; simp [h'']
        · left; exact h''
      · right
        simp only [List.mem_cons] at h' ⊢
        tauto

theorem paragraphsOf_eq_nil {t : List Char} (h : t.all isSpaceChar = true) :
    paragraphsOf t = [] := by
  apply List.filter_eq_nil_iff.mpr
  intro p hp
  simp only [List.mem_map] at hp
  obtain ⟨q, hq, rfl⟩ := hp
  have hall : q.all isSpaceChar = true := by
    apply List.all_eq_true.mpr
    intro c hc
    rcases splitNN_chars t [] q hq c hc with h' | h'
    · simp at h'
    · exact List.all_eq_true.mp h c h'
  simp [pyStrip_eq_nil hall]

theorem findQuotedAux_eq_nil {t : List Char} (h : ∀ c ∈ t, c ≠ '"') :
    findQuotedAux t false [] = [] := by
  induction t with
  | nil => simp [findQuotedAux]
  | cons c cs ih =>
    have hc := h c (by simp)
    simp only [findQuotedAux, hc, if_false]
    exact ih (fun d hd => h d (by simp [hd]))

theorem findQuoted_eq_nil_of_space {t : List Char} (h : t.all isSpaceChar = true) :
    findQuoted t = [] :=
  findQuotedAux_eq_nil (fun c hc => ne_quote_of_space (List.all_eq_true.mp h c hc))

theorem containsSub_eq_false_of_space {w s : List Char} (hs : s.all isSpaceChar = true)
    (hw : w.all isSpaceChar = false) : containsSub w s = false := by
  rw [Bool.eq_false_iff]
  intro hT
  have ho := containsSub_iff.mp hT
  have hwt : w.all isSpaceChar = true :=
    List.all_eq_true.mpr (fun c hc => List.all_eq_true.mp hs c (mem_of_occursIn ho hc))
  rw [hwt] at hw
  exact absurd hw (by simp)

theorem sentenceLengthsOf_eq_nil {t : List Char} (h : t.all isSpaceChar = true) :
    sentenceLengthsOf t = [] := by
  unfold sentenceLengthsOf
  rw [reSplit_no_sep
    (fun c hc => isSentenceSep_eq_false_of_space (List.all_eq_true.mp h c hc))]
  simp [pyStrip_eq_nil h]

theorem assess_readability_space {t : List Char} (h : t.all isSpaceChar = true) :
    assess_readability t = 0 := by
  simp [assess_readability, pySplit_eq_nil h]

theorem assess_story_structure_space {t : List Char} (h : t.all isSpaceChar = true) :
    assess_story_structure t = 0 := by
  simp [assess_story_structure, paragraphsOf_eq_nil h]

theorem findCapWords_eq_nil_of_space {t : List Char} (h : t.all isSpaceChar = true) :
    findCapWords t = [] := by
  unfold findCapWords
  rw [wordRuns_eq_nil h]
  rfl

theorem assess_character_consistency_space {t : List Char} (h : t.all isSpaceChar = true) :
    assess_character_consistency t = 7/10 := by
  simp [assess_character_consistency, findCapWords_eq_nil_of_space h, pyDedup, pyDedupAux]

theorem assess_pacing_space {t : List Char} (h : t.all isSpaceChar = true) :
    assess_pacing t = 0 := by
  simp [assess_pacing, sentenceLengthsOf_eq_nil h]

theorem assess_dialogue_effectiveness_space {t : List Char} (h : t.all isSpaceChar = true) :
    assess_dialogue_effectiveness t = 3/5 := by
  simp [assess_dialogue_effectiveness, findQuoted_eq_nil_of_space h]

theorem assess_narrative_flow_space {t : List Char} (h : t.all isSpaceChar = true) :
    assess_narrative_flow t = 1/2 := by
  simp [assess_narrative_flow, paragraphsOf_eq_nil h]

theorem assess_tension_space {t : List Char} (h : t.all isSpaceChar = true) :
    assess_tension t = 1/2 := by
  have hws : (lowerL t).all isSpaceChar = true := lowerL_all_space h
  have hall : ∀ w ∈ tension_words, containsSub w (lowerL t) = false := by
    intro w hw
    simp only [tension_words, List.mem_cons, List.not_mem_nil, or_false] at hw
    rcases hw with rfl | rfl | rfl | rfl | rfl | rfl | rfl | rfl | rfl | rfl | rfl | rfl | rfl <;>
      (apply containsSub_eq_false_of_space hws; decide)
  have hcount : tension_words.countP (fun w => containsSub w (lowerL t)) = 0 :=
    List.countP_eq_zero.mpr (fun w hw => by simp [hall w hw])
  have hsent : reSplit isSentenceSep t = [t] :=
    reSplit_no_sep (fun c hc => isSentenceSep_eq_false_of_space (List.all_eq_true.mp h c hc))
  simp [assess_tension, hcount, hsent, pyStrip_eq_nil h]
  norm_num

theorem assess_prose_quality_space {t : List Char} (h : t.all isSpaceChar = true) :
    assess_prose_quality t = 0 := by
  simp [assess_prose_quality, pySplit_eq_nil h]

theorem detectAux_no_match (ms : List Char) (allLines : List (List Char)) :
    ∀ (lines : List (List Char)) (i num : Nat) (acc : List ChapterBoundary),
    (∀ line ∈ lines, lineMatches (pyStrip line) = false) →
    detectAux ms allLines lines i num acc = acc := by
  intro lines
  induction lines with
  | nil => intro i num acc _; rfl
  | cons l rest ih =>
    intro i num acc h
    have hl := h l (by simp)
    simp only [detectAux, hl, Bool.false_eq_true, if_false]
    exact ih _ _ _ (fun d hd => h d (by simp [hd]))

theorem setLastEnd_length : ∀ (l : List ChapterBoundary) (p : Nat),
    (setLastEnd l p).length = l.length
  | [], _ => rfl
  | [_], _ => rfl
  | _ :: c :: r, p => by
    show (setLastEnd (c :: r) p).length + 1 = (c :: r).length + 1
    rw [setLastEnd_length (c :: r) p]

theorem numberedFrom_setLastEnd : ∀ (k : Nat) (l : List ChapterBoundary) (p : Nat),
    numberedFrom k l → numberedFrom k (setLastEnd l p)
  | _, [], _, h => h
  | k, [b], p, h => by
    simp only [numberedFrom, setLastEnd] at h ⊢
    exact h
  | k, b :: c :: r, p, h => by
    obtain ⟨h1, h2⟩ := h
    exact ⟨h1, numberedFrom_setLastEnd (k + 1) (c :: r) p h2⟩

theorem numberedFrom_append_singleton : ∀ (k : Nat) (l : List ChapterBoundary)
    (b : ChapterBoundary), numberedFrom k l → b.chapter_number = k + l.length →
    numberedFrom k (l ++ [b])
  | k, [], b, _, hb => ⟨by simpa using hb, trivial⟩
  | k, a :: l, b, h, hb => by
    obtain ⟨h1, h2⟩ := h
    refine ⟨h1, numberedFrom_append_singleton (k + 1) l b h2 ?_⟩
    simp only [List.length_cons] at hb
    omega

theorem setLastEnd_cons (c : ChapterBoundary) (r : List ChapterBoundary) (p : Nat) :
    ∃ c' r', setLastEnd (c :: r) p = c' :: r' ∧ c'.start_position = c.start_position := by
  cases r with
  | nil => exact ⟨_, _, rfl, rfl⟩
  | cons d r' => exact ⟨c, _, rfl, rfl⟩

theorem chainedTo_snoc (L : Nat) (b : ChapterBoundary) (hb : b.end_position = L) :
    ∀ l, chainedTo L l → chainedTo L (setLastEnd l b.start_position ++ [b])
  | [], _ => by simp [setLastEnd, chainedTo, hb]
  | [a], _ => by simp [setLastEnd, chainedTo, hb]
  | a :: c :: r, h => by
    obtain ⟨h1, h2⟩ := h
    have hrec := chainedTo_snoc L b hb (c :: r) h2
    obtain ⟨c', r', heq, hstart⟩ := setLastEnd_cons c r b.start_position
    have hshape : setLastEnd (a :: c :: r) b.start_position =
        a :: setLastEnd (c :: r) b.start_position := rfl
    rw [hshape, heq]
    rw [heq] at hrec
    exact ⟨by rw [h1, hstart], hrec⟩

theorem detectAux_inv (ms : List Char) (allLines : List (List Char)) :
    ∀ (lines : List (List Char)) (i num : Nat) (acc : List ChapterBoundary),
    numberedFrom 1 acc → num = acc.length + 1 → chainedTo ms.length acc →
    numberedFrom 1 (detectAux ms allLines lines i num acc) ∧
    chainedTo ms.length (detectAux ms allLines lines i num acc) := by
  intro lines
  induction lines with
  | nil => intro i num acc h1 h2 h3; exact ⟨h1, h3⟩
  | cons l rest ih =>
    intro i num acc h1 h2 h3
    by_cases hm : lineMatches (pyStrip l) = true
    · simp only [detectAux, hm, if_true]
      apply ih
      · apply numberedFrom_append_singleton 1 _ _ (numberedFrom_setLastEnd 1 acc _ h1)
        simp only [setLastEnd_length]
        omega
      · simp only [List.length_append, setLastEnd_length, List.length_singleton]
        omega
      · exact chainedTo_snoc ms.length
          ⟨num, positionAtLine ms i, ms.length, extract_chapter_title (pyStrip l),
           calculate_confidence (pyStrip l) i allLines⟩ rfl acc h3
    · rw [Bool.not_eq_true] at hm
      simp only [detectAux, hm, Bool.false_eq_true, if_false]
      exact ih _ _ _ h1 h2 h3

theorem detect_chapters_inv (ms : List Char) :
    numberedFrom 1 (detect_chapters ms) ∧ chainedTo ms.length (detect_chapters ms) := by
  have h0 := detectAux_inv ms (splitChar '\n' ms []) (splitChar '\n' ms []) 0 1 []
    trivial rfl trivial
  by_cases hE : (detectAux ms (splitChar '\n' ms []) (splitChar '\n' ms []) 0 1 []).isEmpty = true
  · simp only [detect_chapters, hE, if_true]
    exact ⟨⟨rfl, trivial⟩, rfl⟩
  · simp only [detect_chapters, hE, Bool.false_eq_true, if_false]
    exact h0

theorem detect_chapters_ne_nil (ms : List Char) : detect_chapters ms ≠ [] := by
  by_cases hE : (detectAux ms (splitChar '\n' ms []) (splitChar '\n' ms []) 0 1 []).isEmpty = true
  · simp [detect_chapters, hE]
  · simp only [detect_chapters, hE, Bool.false_eq_true, if_false]
    simpa [List.isEmpty_iff] using hE

theorem numberedFrom_getD : ∀ (k : Nat) (l : List ChapterBoundary), numberedFrom k l →
    ∀ j, j < l.length → (l.getD j cbDefault).chapter_number = k + j
  | _, [], _, j, hj => absurd hj (by simp)
  | k, b :: bs, h, 0, _ => by simpa using h.1
  | k, b :: bs, h, j + 1, hj => by
    have := numberedFrom_getD (k + 1) bs h.2 j (by simpa using hj)
    simp only [List.getD_cons_succ]
    omega

theorem chainedTo_adjacent : ∀ (L : Nat) (l : List ChapterBoundary), chainedTo L l →
    ∀ j, j + 1 < l.length →
    (l.getD j cbDefault).end_position = (l.getD (j + 1) cbDefault).start_position
  | _, [], _, j, hj => absurd hj (by simp)
  | _, [_], _, j, hj => absurd hj (by simp)
  | L, a :: b :: r, h, 0, _ => by simpa using h.1
  | L, a :: b :: r, h, j + 1, hj => by
    have := chainedTo_adjacent L (b :: r) h.2 j (by simpa using hj)
    simpa using this

theorem chainedTo_getLast : ∀ (L : Nat) (l : List ChapterBoundary), chainedTo L l →
    ∀ b, l.getLast? = some b → b.end_position = L
  | _, [], _, b, hb => by simp at hb
  | L, [a], h, b, hb => by
    simp only [List.getLast?_singleton, Option.some_inj] at hb
    subst hb
    exact h
  | L, a :: c :: r, h, b, hb => by
    apply chainedTo_getLast L (c :: r) h.2 b
    simpa [List.getLast?_cons_cons] using hb

theorem is_better_than_overall {X Y : QualityMetrics} (h : X.is_better_than Y = true) :
    X.overall_score > Y.overall_score := by
  simp only [QualityMetrics.is_better_than, Bool.and_eq_true, decide_eq_true_eq] at h
  exact h.2

theorem is_better_than_irrefl (X : QualityMetrics) : X.is_better_than X = false := by
  simp [QualityMetrics.is_better_than]

theorem rewriteLoop_current (gen : List Char → ProblemAnalysis → List Char)
    (om : QualityMetrics) :
    ∀ (fuel : Nat) (cur : List Char) (p : ProblemAnalysis) (i : Nat) (a : List (List Char)),
    (rewriteLoop gen om fuel cur p i a).1 = cur ∨
    (assess_quality (rewriteLoop gen om fuel cur p i a).1).is_better_than om = true := by
  intro fuel
  induction fuel with
  | zero => intro cur p i a; exact Or.inl rfl
  | succ fuel ih =>
    intro cur p i a
    simp only [rewriteLoop]
    by_cases hb : (assess_quality (gen cur p)).is_better_than om = true
    · simp only [hb, if_true]
      by_cases h9 : (assess_quality (gen cur p)).overall_score > 9/10
      · simp only [h9, if_true]
        exact Or.inr hb
      · simp only [h9, if_false]
        by_cases hs : (analyze_problems (gen cur p)).severity_score < 1/5
        · simp only [hs, if_true]
          exact Or.inr hb
        · simp only [hs, if_false]
          rcases ih (gen cur p) (analyze_problems (gen cur p)) (i + 1) (a ++ identify_improvements om (assess_quality (gen cur p))) with h | h
          · rw [h] at *
            exact Or.inr (by rw [h]; exact hb)
          · exact Or.inr h
    · rw [Bool.not_eq_true] at hb
      simp only [hb, Bool.false_eq_true, if_false]
      exact ih cur p (i + 1) a

theorem rewriteLoop_stuck (gen : List Char → ProblemAnalysis → List Char)
    (om : QualityMetrics)
    (h : ∀ u p, (assess_quality (gen u p)).is_better_than om = false) :
    ∀ (fuel : Nat) (cur : List Char) (p : ProblemAnalysis) (i : Nat) (a : List (List Char)),
    rewriteLoop gen om fuel cur p i a = (cur, p, i + fuel, a) := by
  intro fuel
  induction fuel with
  | zero => intro cur p i a; rfl
  | succ fuel ih =>
    intro cur p i a
    simp only [rewriteLoop, h cur p, Bool.false_eq_true, if_false]
    rw [ih cur p (i + 1) a]
    have : i + 1 + fuel = i + (fuel + 1) := by omega
    rw [this]

theorem occursIn_singleton_elim {n : List Char} {d : Char} (hne : n ≠ [])
    (h : occursIn n [d]) : n = [d] := by
  obtain ⟨u, v, huv⟩ := h
  have hlen := congrArg List.length huv
  simp only [List.length_append, List.length_singleton] at hlen
  have hn1 : 1 ≤ n.length := List.length_pos.mpr hne
  have hu : u.length = 0 := by omega
  have hv : v.length = 0 := by omega
  rw [List.length_eq_zero.mp hu, List.length_eq_zero.mp hv] at huv
  simpa using huv.symm

theorem spanning_into_singleton {t v : List Char} {d : Char} (htn : t ≠ [])
    (hv : [d] = t ++ v) : t = [d] := by
  cases t with
  | nil => exact absurd rfl htn
  | cons a as =>
    injection hv with h1 h2
    rcases List.append_eq_nil.mp h2.symm with ⟨ha, _⟩
    rw [h1, ha]

theorem not_occursIn_pyRepr {n x : List Char} (hne : n ≠ []) (hq : '"' ∉ n)
    (hh : n.head? ≠ some '\'') (ht : '\'' ∈ n.dropLast ∨ n.getLast? ≠ some '\'')
    (hx : ¬ occursIn n x) : ¬ occursIn n (pyRepr x) := by
  intro h
  unfold pyRepr at h
  by_cases hpx : '\'' ∈ x
  · rw [if_pos hpx] at h
    rcases occursIn_cons_elim h with ⟨r, hr⟩ | h2
    · cases n with
      | nil => exact hne rfl
      | cons a as =>
        injection hr with h1 _
        exact hq (by simp [← h1])
    · rcases occursIn_append_elim h2 with h3 | h3 | ⟨s, t, hn, hs, htn, ⟨u, hu⟩, ⟨v, hv⟩⟩
      · exact hx h3
      · have := occursIn_singleton_elim hne h3
        exact hq (by simp [this])
      · have ht1 : t = ['"'] := spanning_into_singleton htn hv
        exact hq (by rw [hn, ht1]; simp)
  · rw [if_neg hpx] at h
    rcases occursIn_cons_elim h with ⟨r, hr⟩ | h2
    · cases n with
      | nil => exact hne rfl
      | cons a as =>
        injection hr with h1 _
        exact hh (by simp [← h1])
    · rcases occursIn_append_elim h2 with h3 | h3 | ⟨s, t, hn, hs, htn, ⟨u, hu⟩, ⟨v, hv⟩⟩
      · exact hx h3
      · have hn1 := occursIn_singleton_elim hne h3
        exact hh (by simp [hn1])
      · have ht1 : t = ['\''] := spanning_into_singleton htn hv
        rw [ht1] at hn
        rcases ht with hd | hl
        · have hdl : n.dropLast = s := by rw [hn]; exact List.dropLast_concat
          rw [hdl] at hd
          exact hpx (hu ▸ List.mem_append_right u hd)
        · exact hl (by rw [hn]; simp)

theorem not_occursIn_pyStrInner {n : List Char} (hne : n ≠ []) (hc : ',' ∉ n)
    (hq : '"' ∉ n) (hh : n.head? ≠ some '\'') (hsp : n.head? ≠ some ' ')
    (ht : '\'' ∈ n.dropLast ∨ n.getLast? ≠ some '\'') :
    ∀ xs : List (List Char), (∀ x ∈ xs, ¬ occursIn n x) → ¬ occursIn n (pyStrInner xs)
  | [], _ => fun h => hne (occursIn_nil_elim h)
  | [x], hxs => by
    simpa [pyStrInner] using
      not_occursIn_pyRepr hne hq hh ht (hxs x (by simp))
  | x :: y :: ys, hxs => by
    intro h
    simp only [pyStrInner] at h
    rcases occursIn_append_elim h with h3 | h3 | ⟨s, t, hn, hs, htn, ⟨u, hu⟩, ⟨v, hv⟩⟩
    · exact not_occursIn_pyRepr hne hq hh ht (hxs x (by simp)) h3
    · rcases occursIn_cons_elim h3 with ⟨r, hr⟩ | h4
      · cases n with
        | nil => exact hne rfl
        | cons a as =>
          injection hr with h1 _
          exact hc (by simp [← h1])
      · rcases occursIn_cons_elim h4 with ⟨r, hr⟩ | h5
        · cases n with
          | nil => exact hne rfl
          | cons a as =>
            injection hr with h1 _
            exact hsp (by simp [← h1])
        · exact not_occursIn_pyStrInner hne hc hq hh hsp ht (y :: ys)
            (fun z hz => hxs z (by simp [hz])) h5
    · have : ',' ∈ t := by
        cases t with
        | nil => exact absurd rfl htn
        | cons a as =>
          injection hv with h1 _
          simp [← h1]
      exact hc (by rw [hn]; exact List.mem_append_right s this)

theorem not_occursIn_pyStrOfList {n : List Char} (hne : n ≠ []) (hc : ',' ∉ n)
    (hlb : '[' ∉ n) (hrb : ']' ∉ n) (hq : '"' ∉ n) (hh : n.head? ≠ some '\'')
    (hsp : n.head? ≠ some ' ')
    (ht : '\'' ∈ n.dropLast ∨ n.getLast? ≠ some '\'')
    (xs : List (List Char)) (hxs : ∀ x ∈ xs, ¬ occursIn n x) :
    ¬ occursIn n (pyStrOfList xs) := by
  intro h
  unfold pyStrOfList at h
  rcases occursIn_cons_elim h with ⟨r, hr⟩ | h2
  · cases n with
    | nil => exact hne rfl
    | cons a as =>
      injection hr with h1 _
      exact hlb (by simp [← h1])
  · rcases occursIn_append_elim h2 with h3 | h3 | ⟨s, t, hn, hs, htn, ⟨u, hu⟩, ⟨v, hv⟩⟩
    · exact not_occursIn_pyStrInner hne hc hq hh hsp ht xs hxs h3
    · have := occursIn_singleton_elim hne h3
      exact hrb (by simp [this])
    · have ht1 : t = [']'] := spanning_into_singleton htn hv
      exact hrb (by rw [hn, ht1]; simp)

theorem containsSub_pyStr_eq_false {n : List Char} (hne : n ≠ []) (hc : ',' ∉ n)
    (hlb : '[' ∉ n) (hrb : ']' ∉ n) (hq : '"' ∉ n) (hh : n.head? ≠ some '\'')
    (hsp : n.head? ≠ some ' ')
    (ht : '\'' ∈ n.dropLast ∨ n.getLast? ≠ some '\'')
    {xs : List (List Char)} (hxs : ∀ x ∈ xs, containsSub n x = false) :
    containsSub n (pyStrOfList xs) = false := by
  rw [Bool.eq_false_iff]
  intro hT
  apply not_occursIn_pyStrOfList hne hc hlb hrb hq hh hsp ht xs ?_ (containsSub_iff.mp hT)
  intro x hx ho
  have := containsSub_iff.mpr ho
  rw [hxs x hx] at this
  exact absurd this (by simp)

theorem dialogue_fold_keeps (original : List Char) :
    ∀ (ds : List (List Char)) (rw s : List Char), containsSub s original = true →
    (s ∈ ds ∨ containsSub s rw = true) →
    containsSub s (List.foldl
      (fun rw d => if containsSub d original && !containsSub d rw
        then rw ++ lc "\n\n" ++ d else rw) rw ds) = true := by
  intro ds
  induction ds with
  | nil =>
    intro rw s hso h
    rcases h with h | h
    · simp at h
    · simpa using h
  | cons d ds ih =>
    intro rw s hso h
    simp only [List.foldl_cons]
    by_cases hcond : (containsSub d original && !containsSub d rw) = true
    · rw [if_pos hcond]
      rcases h with h | h
      · rcases List.mem_cons.mp h with rfl | h2
        · refine ih _ s hso (Or.inr ?_)
          have := containsSub_append_pat (rw ++ lc "\n\n") s
          simpa [List.append_assoc] using this
        · exact ih _ s hso (Or.inl h2)
      · refine ih _ s hso (Or.inr ?_)
        have := containsSub_append_right (lc "\n\n" ++ d) h
        simpa [List.append_assoc] using this
    · rw [if_neg hcond]
      rcases h with h | h
      · rcases List.mem_cons.mp h with rfl | h2
        · cases hrw : containsSub s rw with
          | true => exact ih _ s hso (Or.inr hrw)
          | false => exact absurd (by simp [hso, hrw]) hcond
        · exact ih _ s hso (Or.inl h2)
      · exact ih _ s hso (Or.inr h)

/-- C1: `A.is_better_than(B)` holds exactly when every one of the eight
dimension scores of `A` is `≥` the corresponding score of `B` and
`A.overall_score` is strictly greater than `B.overall_score`; in
particular, if any single dimension of `A` is lower than `B`'s, the
predicate is false. -/
theorem c1_is_better_than_dominance (A B : QualityMetrics) :
    (A.is_better_than B = true ↔
      (A.readability_score ≥ B.readability_score ∧
       A.story_structure_score ≥ B.story_structure_score ∧
       A.character_consistency_score ≥ B.character_consistency_score ∧
       A.pacing_score ≥ B.pacing_score ∧
       A.dialogue_effectiveness_score ≥ B.dialogue_effectiveness_score ∧
       A.narrative_flow_score ≥ B.narrative_flow_score ∧
       A.tension_score ≥ B.tension_score ∧
       A.prose_quality_score ≥ B.prose_quality_score ∧
       A.overall_score > B.overall_score)) ∧
    ((A.readability_score < B.readability_score ∨
      A.story_structure_score < B.story_structure_score ∨
      A.character_consistency_score < B.character_consistency_score ∨
      A.pacing_score < B.pacing_score ∨
      A.dialogue_effectiveness_score < B.dialogue_effectiveness_score ∨
      A.narrative_flow_score < B.narrative_flow_score ∨
      A.tension_score < B.tension_score ∨
      A.prose_quality_score < B.prose_quality_score) →
     A.is_better_than B = false) := by
  have hiff : A.is_better_than B = true ↔
      (A.readability_score ≥ B.readability_score ∧
       A.story_structure_score ≥ B.story_structure_score ∧
       A.character_consistency_score ≥ B.character_consistency_score ∧
       A.pacing_score ≥ B.pacing_score ∧
       A.dialogue_effectiveness_score ≥ B.dialogue_effectiveness_score ∧
       A.narrative_flow_score ≥ B.narrative_flow_score ∧
       A.tension_score ≥ B.tension_score ∧
       A.prose_quality_score ≥ B.prose_quality_score ∧
       A.overall_score > B.overall_score) := by
    simp only [QualityMetrics.is_better_than, Bool.and_eq_true, decide_eq_true_eq]
    tauto
  refine ⟨hiff, fun h => ?_⟩
  rw [Bool.eq_false_iff]
  intro hT
  obtain ⟨g1, g2, g3, g4, g5, g6, g7, g8, g9⟩ := hiff.mp hT
  rcases h with h | h | h | h | h | h | h | h <;> linarith

/-- Witness for C1: a pair where `A` beats `B` on overall but is lower on
one dimension, and the predicate is false. -/
theorem c1_is_better_than_dominance_witness :
    QualityMetrics.is_better_than (⟨0, 1, 1, 1, 1, 1, 1, 1, 1⟩ : QualityMetrics)
      (⟨1, 1, 1, 1, 1, 1, 1, 1, 0⟩ : QualityMetrics) = false :=
  (c1_is_better_than_dominance ⟨0, 1, 1, 1, 1, 1, 1, 1, 1⟩ ⟨1, 1, 1, 1, 1, 1, 1, 1, 0⟩).2
    (Or.inl (by norm_num))

/-- C2: for every generation step (hence every intensity and every random
draw), manuscript, chapter selection, preservation controls and
`max_iterations ≥ 1`, the returned report's `improvements['overall']` is
`≥ 0`; candidates are accepted only against the original baseline, and
if no candidate ever dominates the baseline the returned text is the
original chapter and every improvement delta is zero. -/
theorem c2_overall_improvement_nonneg (gen : List Char → ProblemAnalysis → List Char)
    (ms : List Char) (cn : Option Int) (pc : Option PreservationControls)
    (mi : Nat) (_hmi : 1 ≤ mi) :
    overallImprovementNonneg (rewrite_chapter gen ms cn pc mi) ∧
    ((∀ u p, (assess_quality (gen u p)).is_better_than (baselineMetrics ms cn) = false) →
      returnsOriginalWithZeroDeltas ms cn (rewrite_chapter gen ms cn pc mi)) := by
  cases hsel : selectChapter ms cn with
  | error e =>
    simp [rewrite_chapter, hsel, overallImprovementNonneg, returnsOriginalWithZeroDeltas]
  | ok c =>
    constructor
    · simp only [rewrite_chapter, hsel, overallImprovementNonneg, calculate_improvements]
      rcases rewriteLoop_current gen (assess_quality (sliceText ms c)) mi (sliceText ms c)
        (analyze_problems (sliceText ms c)) 0 [] with h | h
      · rw [h]
        simp
      · have := is_better_than_overall h
        simp only [ge_iff_le, sub_nonneg]
        exact le_of_lt this
    · intro hstuck
      have hb : baselineMetrics ms cn = assess_quality (sliceText ms c) := by
        simp [baselineMetrics, chapterTextOf, hsel]
      rw [hb] at hstuck
      have hloop := rewriteLoop_stuck gen _ hstuck mi (sliceText ms c)
        (analyze_problems (sliceText ms c)) 0 []
      simp only [rewrite_chapter, hsel, returnsOriginalWithZeroDeltas, hloop]
      exact ⟨by simp [chapterTextOf, hsel], by
        simp [calculate_improvements, Improvements.mk.injEq, sub_self]⟩

/-- Witness for C2 at a concrete constant generator, manuscript and
`max_iterations = 1`. -/
theorem c2_overall_improvement_nonneg_witness :
    overallImprovementNonneg
      (rewrite_chapter (fun (_ : List Char) (_ : ProblemAnalysis) => lc "ab")
        (lc "ab") none none 1) ∧
    ((∀ u p, (assess_quality
        ((fun (_ : List Char) (_ : ProblemAnalysis) => lc "ab") u p)).is_better_than
        (baselineMetrics (lc "ab") none) = false) →
      returnsOriginalWithZeroDeltas (lc "ab") none
        (rewrite_chapter (fun (_ : List Char) (_ : ProblemAnalysis) => lc "ab")
          (lc "ab") none none 1)) :=
  c2_overall_improvement_nonneg (fun (_ : List Char) (_ : ProblemAnalysis) => lc "ab")
    (lc "ab") none none 1 (by decide)

/-- C3, counterexample: on the empty input `assess_quality` does not
return all-zero scores — character consistency is `0.7`, dialogue is
`0.6`, narrative flow and tension are `0.5`, and the overall score is
`0.2875`, not `0`. -/
theorem c3_empty_scores_counterexample :
    (assess_quality (lc "")).character_consistency_score = 7/10 ∧
    (assess_quality (lc "")).overall_score = 23/80 ∧
    ¬ ((assess_quality (lc "")).character_consistency_score = 0 ∧
       (assess_quality (lc "")).overall_score = 0) := by
  have hws : (lc "").all isSpaceChar = true := by decide
  have h1 := assess_readability_space hws
  have h2 := assess_story_structure_space hws
  have h3 := assess_character_consistency_space hws
  have h4 := assess_pacing_space hws
  have h5 := assess_dialogue_effectiveness_space hws
  have h6 := assess_narrative_flow_space hws
  have h7 := assess_tension_space hws
  have h8 := assess_prose_quality_space hws
  refine ⟨by simp [assess_quality, h3],
    by simp only [assess_quality, h1, h2, h3, h4, h5, h6, h7, h8]; norm_num, ?_⟩
  rintro ⟨hzero, _⟩
  rw [show (assess_quality (lc "")).character_consistency_score = 7/10 from
    by simp [assess_quality, h3]] at hzero
  norm_num at hzero

/-- C3, amended: on empty or whitespace-only input `assess_quality`
raises no exception (it is total) and returns readability, story
structure, pacing and prose scores `0.0`, character consistency `0.7`,
dialogue effectiveness `0.6`, narrative flow `0.5`, tension `0.5`, and
overall score `0.2875`. -/
theorem c3_whitespace_neutral_scores (t : List Char) (h : t.all isSpaceChar = true) :
    assess_quality t = ⟨0, 0, 7/10, 0, 3/5, 1/2, 1/2, 0, 23/80⟩ := by
  have h1 := assess_readability_space h
  have h2 := assess_story_structure_space h
  have h3 := assess_character_consistency_space h
  have h4 := assess_pacing_space h
  have h5 := assess_dialogue_effectiveness_space h
  have h6 := assess_narrative_flow_space h
  have h7 := assess_tension_space h
  have h8 := assess_prose_quality_space h
  simp only [assess_quality, h1, h2, h3, h4, h5, h6, h7, h8]
  norm_num [QualityMetrics.mk.injEq]

/-- Witness for the amended C3 at a concrete whitespace-only input. -/
theorem c3_whitespace_neutral_scores_witness :
    (lc " \n\t ").all isSpaceChar = true ∧
    assess_quality (lc " \n\t ") = ⟨0, 0, 7/10, 0, 3/5, 1/2, 1/2, 0, 23/80⟩ :=
  ⟨by decide, c3_whitespace_neutral_scores (lc " \n\t ") (by decide)⟩

/-- C4: whenever every candidate the generation step can produce fails to
dominate the baseline, `rewrite_chapter` with `max_iterations = 1`
returns `final_metrics` equal to `original_metrics` (all nine fields)
and `iterations_required = 1`. -/
theorem c4_final_equals_original (gen : List Char → ProblemAnalysis → List Char)
    (ms : List Char) (cn : Option Int) (pc : Option PreservationControls)
    (h : ∀ u p, (assess_quality (gen u p)).is_better_than (baselineMetrics ms cn) = false) :
    finalEqOriginalAndOneIteration (rewrite_chapter gen ms cn pc 1) := by
  cases hsel : selectChapter ms cn with
  | error e => simp [rewrite_chapter, hsel, finalEqOriginalAndOneIteration]
  | ok c =>
    have hb : baselineMetrics ms cn = assess_quality (sliceText ms c) := by
      simp [baselineMetrics, chapterTextOf, hsel]
    rw [hb] at h
    have hloop := rewriteLoop_stuck gen _ h 1 (sliceText ms c)
      (analyze_problems (sliceText ms c)) 0 []
    simp [rewrite_chapter, hsel, finalEqOriginalAndOneIteration, hloop]

/-- Witness for C4 at a concrete constant generator whose candidate never
dominates the baseline. -/
theorem c4_final_equals_original_witness :
    finalEqOriginalAndOneIteration
      (rewrite_chapter (fun (_ : List Char) (_ : ProblemAnalysis) => lc "ab")
        (lc "ab") none none 1) :=
  c4_final_equals_original (fun (_ : List Char) (_ : ProblemAnalysis) => lc "ab")
    (lc "ab") none none
    (fun _ _ => is_better_than_irrefl (assess_quality (lc "ab")))

/-- C5, counterexample: with character-name preservation enabled (the
default), the name-restoration step can overwrite the first `" he "` of
the rewritten text inside a preserved dialogue string — here
`"so he ran"` occurs verbatim in the original, survives the LIGHT tier,
and is then destroyed when the missing name `Beverly` replaces
`" he "`, so the rewrite step's output does not contain the requested
dialogue. -/
theorem c5_preserved_dialogue_counterexample :
    lc "so he ran" ∈
      (⟨[lc "so he ran"], true, [], []⟩ : PreservationControls).preserve_dialogue ∧
    containsSub (lc "so he ran") (lc "it was Beverly who saw. so he ran far") = true ∧
    containsSub (lc "so he ran")
      (generate_rewrite_light (lc "it was Beverly who saw. so he ran far")
        (⟨[], [], [], [],
          [],
          [lc "Excessive use of adverbs (1 found) - consider stronger verbs"],
          0⟩ : ProblemAnalysis)
        (some ⟨[lc "so he ran"], true, [], []⟩)) = false := by
  refine ⟨by decide, by decide, by decide⟩

/-- C5, amended: provided `preserve_character_names` is disabled, every
requested dialogue string that occurs verbatim in the original text
occurs verbatim in the output of the preservation step applied to any
tier output (any requested string missing from the rewritten text having
been appended at the end). -/
theorem c5_preserve_dialogue_without_name_restore (rewritten original : List Char)
    (controls : PreservationControls) (s : List Char)
    (h1 : controls.preserve_character_names = false)
    (h2 : s ∈ controls.preserve_dialogue)
    (h3 : containsSub s original = true) :
    containsSub s (apply_preservation_controls rewritten original controls) = true := by
  unfold apply_preservation_controls
  rw [h1]
  simp only [Bool.false_eq_true, if_false]
  exact dialogue_fold_keeps original controls.preserve_dialogue rewritten s h3 (Or.inl h2)

/-- Witness for the amended C5 at concrete inputs (the requested dialogue
is absent from the rewritten text and gets appended). -/
theorem c5_preserve_dialogue_without_name_restore_witness :
    containsSub (lc "hello there")
      (apply_preservation_controls (lc "x") (lc "ok hello there ok")
        ⟨[lc "hello there"], false, [], []⟩) = true :=
  c5_preserve_dialogue_without_name_restore (lc "x") (lc "ok hello there ok")
    ⟨[lc "hello there"], false, [], []⟩ (lc "hello there") rfl (by decide) (by decide)

/-- C6: on a manuscript in which no heading pattern matches any stripped
line, `detect_chapters` returns exactly one boundary with chapter number
1 spanning the whole manuscript with confidence 1.0. -/
theorem c6_detect_fallback (ms : List Char)
    (h : ∀ line ∈ splitChar '\n' ms [], lineMatches (pyStrip line) = false) :
    detect_chapters ms = [⟨1, 0, ms.length, none, 1⟩] := by
  have hz := detectAux_no_match ms (splitChar '\n' ms []) (splitChar '\n' ms []) 0 1 [] h
  simp [detect_chapters, hz]

/-- Witness for C6 at a concrete two-line manuscript with no headings. -/
theorem c6_detect_fallback_witness :
    detect_chapters (lc "hello world\nsecond line") =
      [⟨1, 0, (lc "hello world\nsecond line").length, none, 1⟩] :=
  c6_detect_fallback (lc "hello world\nsecond line") (by decide)

/-- C7: for every manuscript the detected boundary list is numbered
1, 2, 3, ... in order, the end position of each boundary equals the
start position of the next, and the last boundary ends at the manuscript
length. -/
theorem c7_boundary_chain (ms : List Char) :
    (∀ j, j < (detect_chapters ms).length →
      ((detect_chapters ms).getD j cbDefault).chapter_number = j + 1) ∧
    (∀ j, j + 1 < (detect_chapters ms).length →
      ((detect_chapters ms).getD j cbDefault).end_position =
      ((detect_chapters ms).getD (j + 1) cbDefault).start_position) ∧
    (∀ b, (detect_chapters ms).getLast? = some b → b.end_position = ms.length) := by
  obtain ⟨hn, hc⟩ := detect_chapters_inv ms
  refine ⟨fun j hj => ?_, fun j hj => chainedTo_adjacent ms.length _ hc j hj,
    fun b hb => chainedTo_getLast ms.length _ hc b hb⟩
  have := numberedFrom_getD 1 _ hn j hj
  omega

/-- Witness for C7 on a two-chapter manuscript: the first boundary ends
where the second starts. -/
theorem c7_boundary_chain_witness :
    ((detect_chapters (lc "Chapter 1\nx\nChapter 2\ny")).getD 0 cbDefault).end_position =
    ((detect_chapters (lc "Chapter 1\nx\nChapter 2\ny")).getD 1 cbDefault).start_position :=
  (c7_boundary_chain (lc "Chapter 1\nx\nChapter 2\ny")).2.1 0 (by decide)

/-- C8: on every non-empty text with no double-quoted dialogue segment,
`assess_quality` returns a dialogue-effectiveness score of exactly 0.6. -/
theorem c8_no_dialogue_neutral (t : List Char) (_hne : t ≠ [])
    (hq : findQuoted t = []) :
    (assess_quality t).dialogue_effectiveness_score = 3/5 := by
  simp [assess_quality, assess_dialogue_effectiveness, hq]

/-- Witness for C8 at a concrete dialogue-free text. -/
theorem c8_no_dialogue_neutral_witness :
    lc "hi there" ≠ [] ∧
    (assess_quality (lc "hi there")).dialogue_effectiveness_score = 3/5 :=
  ⟨by decide, c8_no_dialogue_neutral (lc "hi there") (by decide) (by decide)⟩

/-- C9: an explicit chapter number matching no detected boundary fails
with the chapter-not-found error; the no-chapters-detected error occurs
only if detection returns an empty list, which the detector's fallback
makes impossible; in every other case chapter selection succeeds. -/
theorem c9_selection_errors (ms : List Char) (n : Int) :
    ((∀ c ∈ detect_chapters ms, (c.chapter_number : Int) ≠ n) →
      selectChapter ms (some n) = .error (.chapterNotFound n)) ∧
    (∀ k : Option Int, selectChapter ms k = .error .noChaptersDetected →
      detect_chapters ms = []) ∧
    detect_chapters ms ≠ [] ∧
    ((∃ c ∈ detect_chapters ms, (c.chapter_number : Int) = n) →
      ∃ c, selectChapter ms (some n) = .ok c) ∧
    (∃ c, selectChapter ms none = .ok c) := by
  obtain ⟨c0, cs0, hd⟩ := List.exists_cons_of_ne_nil (detect_chapters_ne_nil ms)
  refine ⟨?_, ?_, detect_chapters_ne_nil ms, ?_, ?_⟩
  · intro h
    have hfil : (c0 :: cs0).filter (fun b => (b.chapter_number : Int) == n) = [] := by
      apply List.filter_eq_nil_iff.mpr
      intro b hb
      simp [h b (hd ▸ hb)]
    simp [selectChapter, hd, hfil]
  · intro k hk
    rcases k with _ | m
    · simp [selectChapter, hd] at hk
    · simp only [selectChapter, hd] at hk
      rcases hfil : (c0 :: cs0).filter (fun b => (b.chapter_number : Int) == m)
        with _ | ⟨t, ts⟩
      · rw [hfil] at hk
        simp at hk
      · rw [hfil] at hk
        simp at hk
  · rintro ⟨c, hc, he⟩
    have hmem : c ∈ (c0 :: cs0).filter (fun b => (b.chapter_number : Int) == n) :=
      List.mem_filter.mpr ⟨hd ▸ hc, by simp [he]⟩
    rcases hfil : (c0 :: cs0).filter (fun b => (b.chapter_number : Int) == n)
      with _ | ⟨t, ts⟩
    · rw [hfil] at hmem
      simp at hmem
    · exact ⟨t, by simp [selectChapter, hd, hfil]⟩
  · exact ⟨(pyMinBySnd (c0, (assess_quality (sliceText ms c0)).overall_score)
      (cs0.map (fun b => (b, (assess_quality (sliceText ms b)).overall_score)))).1,
      by simp [selectChapter, hd]⟩

/-- Witness for C9: chapter 99 is not among the boundaries of a
heading-free manuscript, so selection fails with chapter-not-found. -/
theorem c9_selection_errors_witness :
    selectChapter (lc "hello") (some 99) = .error (.chapterNotFound 99) :=
  (c9_selection_errors (lc "hello") 99).1 (by decide)

/-- C10: whenever no prose issue mentions `Excessive use of adverbs` and
no dialogue issue mentions `Overuse of 'said'`, the LIGHT rewrite tier
returns its input unchanged. -/
theorem c10_light_rewrite_identity (text : List Char) (problems : ProblemAnalysis)
    (h1 : ∀ issue ∈ problems.prose_issues,
      containsSub (lc "Excessive use of adverbs") issue = false)
    (h2 : ∀ issue ∈ problems.dialogue_issues,
      containsSub (lc "Overuse of 'said'") issue = false) :
    light_rewrite text problems = text := by
  have e1 : containsSub (lc "Excessive use of adverbs")
      (pyStrOfList problems.prose_issues) = false :=
    containsSub_pyStr_eq_false (by decide) (by decide) (by decide) (by decide) (by decide)
      (by decide) (by decide) (by decide) h1
  have e2 : containsSub (lc "Overuse of 'said'")
      (pyStrOfList problems.dialogue_issues) = false :=
    containsSub_pyStr_eq_false (by decide) (by decide) (by decide) (by decide) (by decide)
      (by decide) (by decide) (by decide) h2
  simp [light_rewrite, e1, e2]

/-- Witness for C10 at a concrete problem analysis whose issues mention
neither flagged phrase. -/
theorem c10_light_rewrite_identity_witness :
    light_rewrite (lc "hello world")
      ⟨[], [], [], [], [lc "Dialogue lacks contractions - may sound unnatural"],
       [lc "Overuse of weak verbs - consider more specific alternatives"], 1/10⟩ =
    lc "hello world" :=
  c10_light_rewrite_identity (lc "hello world")
    ⟨[], [], [], [], [lc "Dialogue lacks contractions - may sound unnatural"],
     [lc "Overuse of weak verbs - consider more specific alternatives"], 1/10⟩
    (by decide) (by decide)
